import Mathlib

/-!
Verification development for the `uniques` pallet (non-fungible asset classes
and instances with deposit bookkeeping).  The definitions below are a shallow
embedding of `src/frame/uniques/src/lib.rs`: each dispatchable becomes a Lean
function from an explicit storage-plus-currency state to a pair of a dispatch
result and the state left behind.  Machine balances are modelled as `Nat`
(the spec defines `Balance` as a non-negative integer; `saturating_sub`
becomes truncated `Nat` subtraction and `saturating_add` plain addition),
and the `u32` instance counter keeps its `checked_add` overflow test.
-/

namespace Uniques

/-- Account identifiers, opaque and totally ordered; modelled as `Nat`. -/
abbrev AccountId := Nat

/-- Class identifiers. -/
abbrev ClassId := Nat

/-- Instance identifiers. -/
abbrev InstanceId := Nat

/-- Balances. The spec defines `Balance` as a non-negative integer. -/
abbrev Balance := Nat

/-- Modelled from the spec (section 3) and the uses in `lib.rs`: the value
stored in the `Class` map (`types.rs` itself is not among the sources). -/
structure ClassDetails where
  owner : AccountId
  issuer : AccountId
  admin : AccountId
  freezer : AccountId
  total_deposit : Balance
  free_holding : Bool
  instances : Nat
  free_holds : Nat
  is_frozen : Bool
deriving DecidableEq, Repr

/-- Modelled from the spec (section 3): the value stored in the `Asset` map. -/
structure InstanceDetails where
  owner : AccountId
  approved : Option AccountId
  is_frozen : Bool
  deposit : Balance
deriving DecidableEq, Repr

/-- Modelled from the spec (section 3): the value stored in `ClassMetadataOf`. -/
structure ClassMetadata where
  deposit : Balance
  name : List Nat
  information : List Nat
  is_frozen : Bool
deriving DecidableEq, Repr

/-- Modelled from the spec (section 3): the value stored in `InstanceMetadataOf`. -/
structure InstanceMetadata where
  deposit : Balance
  name : List Nat
  information : List Nat
  is_frozen : Bool
deriving DecidableEq, Repr

/-- Witness data for `destroy` (`DestroyWitness` in the source). -/
structure DestroyWitness where
  instances : Nat
  free_holds : Nat
deriving DecidableEq, Repr

/-- Configuration constants of the pallet (`Config` trait in the source). -/
structure Config where
  classDeposit : Balance
  instanceDeposit : Balance
  metadataDepositBase : Balance
  metadataDepositPerByte : Balance
  stringLimit : Nat
deriving DecidableEq, Repr

/-- Dispatch errors of the pallet, plus the host errors that can surface
(`ArithmeticError::Overflow`, the currency error of a failed reserve, and
`BadOrigin` from origin checks). -/
inductive Err where
  | NoPermission
  | Unknown
  | AlreadyExists
  | WrongOwner
  | BadWitness
  | InUse
  | Frozen
  | WrongDelegate
  | NoDelegate
  | Unapproved
  | BadMetadata
  | Overflow
  | InsufficientBalance
  | BadOrigin
deriving DecidableEq, Repr

/-- Origins: the privileged `ForceOrigin` or a signed account. -/
inductive Origin where
  | force : Origin
  | signed : AccountId → Origin
deriving DecidableEq, Repr

/-- Association-list lookup: first entry with the given key. -/
def alGet {α β : Type} [DecidableEq α] (m : List (α × β)) (k : α) : Option β :=
  (m.find? (fun p => decide (p.1 = k))).map Prod.snd

/-- Association-list removal of every entry with the given key. -/
def alRemove {α β : Type} [DecidableEq α] (m : List (α × β)) (k : α) : List (α × β) :=
  m.filter (fun p => decide (¬ p.1 = k))

/-- Association-list insertion, replacing any previous entry for the key. -/
def alInsert {α β : Type} [DecidableEq α] (m : List (α × β)) (k : α) (v : β) :
    List (α × β) :=
  (k, v) :: alRemove m k

/-- Association-list membership of a key. -/
def alContains {α β : Type} [DecidableEq α] (m : List (α × β)) (k : α) : Bool :=
  (alGet m k).isSome

/-- Pointwise update of a balance assignment. -/
def setBal (f : AccountId → Balance) (a : AccountId) (v : Balance) :
    AccountId → Balance :=
  fun x => if x = a then v else f x

/-- The whole observable state: the five storage maps plus the external
Currency balances (free and reserved, per account). -/
structure State where
  classM : List (ClassId × ClassDetails)
  asset : List ((ClassId × InstanceId) × InstanceDetails)
  account : List ((AccountId × ClassId × InstanceId) × Unit)
  classMeta : List (ClassId × ClassMetadata)
  instMeta : List ((ClassId × InstanceId) × InstanceMetadata)
  free : AccountId → Balance
  reserved : AccountId → Balance

/-- Effect of a successful `Currency::reserve` (callers check the free
balance first; the reserve itself is atomic in the external subsystem). -/
def reserveOk (s : State) (a : AccountId) (amt : Balance) : State :=
  { s with free := setBal s.free a (s.free a - amt),
           reserved := setBal s.reserved a (s.reserved a + amt) }

/-- Effect of `Currency::unreserve`, which moves at most the actually
reserved amount back to the free balance (saturating, infallible). -/
def unreserveS (s : State) (a : AccountId) (amt : Balance) : State :=
  { s with free := setBal s.free a (s.free a + min (s.reserved a) amt),
           reserved := setBal s.reserved a (s.reserved a - min (s.reserved a) amt) }

/-- Effect of `Currency::repatriate_reserved(src, dst, amt, Reserved)`:
moves up to `amt` of reserved balance from `src` to `dst`, keeping it
reserved.  In this model accounts always exist, so the call is infallible;
the only call site guards `src ≠ dst`. -/
def repatriateS (s : State) (src dst : AccountId) (amt : Balance) : State :=
  { s with reserved :=
      (setBal (setBal s.reserved src (s.reserved src - min (s.reserved src) amt))
        dst (s.reserved dst + min (s.reserved src) amt)) }

/-- Resolution of `T::ForceOrigin::try_origin` followed by `ensure_signed`,
as done by `destroy` and the metadata calls: the force origin yields `none`
(no owner check), a signed origin yields the signer. -/
def forceOrSigned : Origin → Option AccountId
  | .force => none
  | .signed a => some a

/-- The `if let Some(check_owner) ... ensure owner` pattern used by the
metadata calls and `destroy`. -/
def ownerOk : Option AccountId → AccountId → Bool
  | none, _ => true
  | some a, ow => decide (a = ow)

/-- Metadata deposit formula of `set_metadata` and `set_class_metadata`:
`MetadataDepositPerByte * (name.len + info.len) + MetadataDepositBase`. -/
def mdDep (cfg : Config) (n f : List Nat) : Balance :=
  cfg.metadataDepositPerByte * (n.length + f.length) + cfg.metadataDepositBase

/-- Deposit currently recorded in `InstanceMetadataOf[(c, i)]`, or `0`. -/
def oldInstDeposit (s : State) (c : ClassId) (i : InstanceId) : Balance :=
  match alGet s.instMeta (c, i) with
  | none => 0
  | some m => m.deposit

/-- Deposit currently recorded in `ClassMetadataOf[c]`, or `0`. -/
def oldClassDeposit (s : State) (c : ClassId) : Balance :=
  match alGet s.classMeta c with
  | none => 0
  | some m => m.deposit

/-- Embedding of `create` (lib.rs 266-295): signed; `InUse` if the class
exists; reserves `ClassDeposit` from the signer; inserts the class with all
roles set to `admin` but `owner` the signer. -/
def create (cfg : Config) (o : Origin) (c : ClassId) (admin : AccountId)
    (s : State) : Except Err Unit × State :=
  match o with
  | .force => (.error .BadOrigin, s)
  | .signed owner =>
    if alContains s.classM c then (.error .InUse, s)
    else if s.free owner < cfg.classDeposit then (.error .InsufficientBalance, s)
    else
      (.ok (), { reserveOk s owner cfg.classDeposit with
        classM := (alInsert s.classM c
          ⟨owner, admin, admin, admin, cfg.classDeposit, false, 0, 0, false⟩) })

/-- Embedding of `force_create` (lib.rs 314-341): force origin only; no
reserve; all roles set to `owner`; `total_deposit = 0`. -/
def force_create (o : Origin) (c : ClassId) (owner : AccountId)
    (free_holding : Bool) (s : State) : Except Err Unit × State :=
  match o with
  | .signed _ => (.error .BadOrigin, s)
  | .force =>
    if alContains s.classM c then (.error .InUse, s)
    else
      (.ok (), { s with classM := (alInsert s.classM c
        ⟨owner, owner, owner, owner, 0, free_holding, 0, 0, false⟩) })

/-- Final state of a successful `destroy`: drain every `(c, *)` asset,
removing the matching `Account` and `InstanceMetadataOf` entries, remove the
class metadata, unreserve `total_deposit` from the class owner, and delete
the class (lib.rs 378-389). -/
def destroyCommit (c : ClassId) (cd : ClassDetails) (s : State) : State :=
  let drained := s.asset.filter (fun p => decide (p.1.1 = c))
  { unreserveS s cd.owner cd.total_deposit with
    classM := alRemove s.classM c,
    asset := s.asset.filter (fun p => decide (¬ p.1.1 = c)),
    account := drained.foldl (fun m p => alRemove m (p.2.owner, c, p.1.2)) s.account,
    instMeta := drained.foldl (fun m p => alRemove m p.1) s.instMeta,
    classMeta := alRemove s.classMeta c }

/-- Witness checks of `destroy` (lib.rs 375-376) followed by the commit. -/
def destroyCheck (c : ClassId) (cd : ClassDetails) (w : DestroyWitness)
    (s : State) : Except Err Unit × State :=
  if ¬ cd.instances = w.instances then (.error .BadWitness, s)
  else if ¬ cd.free_holds = w.free_holds then (.error .BadWitness, s)
  else (.ok (), destroyCommit c cd s)

/-- Embedding of `destroy` (lib.rs 361-390): force or signed class owner;
`Unknown` if the class is absent; `BadWitness` on counter mismatch. -/
def destroy (o : Origin) (c : ClassId) (w : DestroyWitness) (s : State) :
    Except Err Unit × State :=
  match alGet s.classM c with
  | none => (.error .Unknown, s)
  | some cd =>
    match forceOrSigned o with
    | some a =>
      if ¬ cd.owner = a then (.error .NoPermission, s)
      else destroyCheck c cd w s
    | none => destroyCheck c cd w s

/-- Storage writes of a successful `mint` (lib.rs 433-436): the updated
class details, the `Account` reverse entry, and the new `Asset` entry. -/
def mintCommit (c : ClassId) (i : InstanceId) (benef : AccountId)
    (dep : Balance) (cd1 : ClassDetails) (s : State) : State :=
  { s with classM := alInsert s.classM c cd1,
           account := alInsert s.account (benef, c, i) (),
           asset := alInsert s.asset (c, i) ⟨benef, none, false, dep⟩ }

/-- Embedding of `mint` (lib.rs 404-442): signed issuer; `AlreadyExists`
when the asset key is taken; `checked_add` on the `u32` instance counter;
under `free_holding` no reserve and `free_holds` incremented, otherwise
`InstanceDeposit` reserved from the class owner and added to
`total_deposit`. -/
def mint (cfg : Config) (o : Origin) (c : ClassId) (i : InstanceId)
    (benef : AccountId) (s : State) : Except Err Unit × State :=
  match o with
  | .force => (.error .BadOrigin, s)
  | .signed origin =>
    if alContains s.asset (c, i) then (.error .AlreadyExists, s)
    else
      match alGet s.classM c with
      | none => (.error .Unknown, s)
      | some cd =>
        if ¬ cd.issuer = origin then (.error .NoPermission, s)
        else if 2 ^ 32 ≤ cd.instances + 1 then (.error .Overflow, s)
        else if cd.free_holding then
          (.ok (), mintCommit c i benef 0
            { cd with instances := cd.instances + 1,
                      free_holds := cd.free_holds + 1 } s)
        else if s.free cd.owner < cfg.instanceDeposit then
          (.error .InsufficientBalance, s)
        else
          (.ok (), mintCommit c i benef cfg.instanceDeposit
            { cd with instances := cd.instances + 1,
                      total_deposit := cd.total_deposit + cfg.instanceDeposit }
            (reserveOk s cd.owner cfg.instanceDeposit))

/-- Embedding of `burn` (lib.rs 458-498): signed class admin or instance
owner, optional `check_owner`; unreserves the instance deposit (if nonzero)
and any instance-metadata deposit from the class owner, decrementing
`total_deposit` saturating each time; decrements `instances` saturating but
leaves `free_holds` untouched; removes the Asset and Account entries. -/
def burn (o : Origin) (c : ClassId) (i : InstanceId)
    (check_owner : Option AccountId) (s : State) : Except Err Unit × State :=
  match o with
  | .force => (.error .BadOrigin, s)
  | .signed origin =>
    match alGet s.classM c with
    | none => (.error .Unknown, s)
    | some cd =>
      match alGet s.asset (c, i) with
      | none => (.error .Unknown, s)
      | some d =>
        if ¬ (cd.admin = origin ∨ d.owner = origin) then (.error .NoPermission, s)
        else if ¬ ownerOk check_owner d.owner then (.error .WrongOwner, s)
        else
          let s1 := if d.deposit = 0 then s else unreserveS s cd.owner d.deposit
          let td1 := if d.deposit = 0 then cd.total_deposit
                     else cd.total_deposit - d.deposit
          match alGet s.instMeta (c, i) with
          | none =>
            (.ok (), { s1 with
              classM := (alInsert s.classM c
                { cd with total_deposit := td1, instances := cd.instances - 1 }),
              asset := alRemove s.asset (c, i),
              account := alRemove s.account (d.owner, c, i) })
          | some md =>
            (.ok (), { unreserveS s1 cd.owner md.deposit with
              classM := (alInsert s.classM c
                { cd with total_deposit := td1 - md.deposit,
                          instances := cd.instances - 1 }),
              asset := alRemove s.asset (c, i),
              account := alRemove s.account (d.owner, c, i),
              instMeta := alRemove s.instMeta (c, i) })

/-- Storage writes of a successful `transfer` (lib.rs 535-538): move the
reverse index to `dest` and store the details with the new owner and the
given approval value. -/
def transferCommit (c : ClassId) (i : InstanceId) (dest : AccountId)
    (d : InstanceDetails) (appr : Option AccountId) (s : State) : State :=
  { s with account := alInsert (alRemove s.account (d.owner, c, i)) (dest, c, i) (),
           asset := alInsert s.asset (c, i) ⟨dest, appr, d.is_frozen, d.deposit⟩ }

/-- Embedding of `transfer` (lib.rs 516-543): signed; `Frozen` if the class
or the instance is frozen; permitted for the instance owner, the class
admin, or the approved delegate, the delegate path clearing the approval. -/
def transfer (o : Origin) (c : ClassId) (i : InstanceId) (dest : AccountId)
    (s : State) : Except Err Unit × State :=
  match o with
  | .force => (.error .BadOrigin, s)
  | .signed origin =>
    match alGet s.classM c with
    | none => (.error .Unknown, s)
    | some cd =>
      if cd.is_frozen then (.error .Frozen, s)
      else
        match alGet s.asset (c, i) with
        | none => (.error .Unknown, s)
        | some d =>
          if d.is_frozen then (.error .Frozen, s)
          else if d.owner = origin ∨ cd.admin = origin then
            (.ok (), transferCommit c i dest d d.approved s)
          else
            match d.approved with
            | some ap =>
              if ap = origin then (.ok (), transferCommit c i dest d none s)
              else (.error .NoPermission, s)
            | none => (.error .NoPermission, s)

/-- Embedding of `freeze` (lib.rs 556-573): signed class freezer; sets the
instance's `is_frozen` flag. -/
def freeze (o : Origin) (c : ClassId) (i : InstanceId) (s : State) :
    Except Err Unit × State :=
  match o with
  | .force => (.error .BadOrigin, s)
  | .signed origin =>
    match alGet s.asset (c, i) with
    | none => (.error .Unknown, s)
    | some d =>
      match alGet s.classM c with
      | none => (.error .Unknown, s)
      | some cd =>
        if ¬ cd.freezer = origin then (.error .NoPermission, s)
        else
          (.ok (), { s with
            asset := alInsert s.asset (c, i) { d with is_frozen := true } })

/-- Embedding of `thaw` (lib.rs 586-603): the source checks the class
*admin* (not the freezer); clears the instance's `is_frozen` flag. -/
def thaw (o : Origin) (c : ClassId) (i : InstanceId) (s : State) :
    Except Err Unit × State :=
  match o with
  | .force => (.error .BadOrigin, s)
  | .signed origin =>
    match alGet s.asset (c, i) with
    | none => (.error .Unknown, s)
    | some d =>
      match alGet s.classM c with
      | none => (.error .Unknown, s)
      | some cd =>
        if ¬ cd.admin = origin then (.error .NoPermission, s)
        else
          (.ok (), { s with
            asset := alInsert s.asset (c, i) { d with is_frozen := false } })

/-- Embedding of `freeze_class` (lib.rs 615-630): signed class freezer. -/
def freeze_class (o : Origin) (c : ClassId) (s : State) :
    Except Err Unit × State :=
  match o with
  | .force => (.error .BadOrigin, s)
  | .signed origin =>
    match alGet s.classM c with
    | none => (.error .Unknown, s)
    | some cd =>
      if ¬ cd.freezer = origin then (.error .NoPermission, s)
      else (.ok (), { s with classM := alInsert s.classM c { cd with is_frozen := true } })

/-- Embedding of `thaw_class` (lib.rs 642-657): signed class admin. -/
def thaw_class (o : Origin) (c : ClassId) (s : State) :
    Except Err Unit × State :=
  match o with
  | .force => (.error .BadOrigin, s)
  | .signed origin =>
    match alGet s.classM c with
    | none => (.error .Unknown, s)
    | some cd =>
      if ¬ cd.admin = origin then (.error .NoPermission, s)
      else (.ok (), { s with classM := alInsert s.classM c { cd with is_frozen := false } })

/-- Embedding of `transfer_ownership` (lib.rs 670-697): signed current
owner; no-op when the owner is unchanged; otherwise repatriates the whole
`total_deposit` reservation to the new owner and updates `owner`. -/
def transfer_ownership (o : Origin) (c : ClassId) (newOwner : AccountId)
    (s : State) : Except Err Unit × State :=
  match o with
  | .force => (.error .BadOrigin, s)
  | .signed origin =>
    match alGet s.classM c with
    | none => (.error .Unknown, s)
    | some cd =>
      if ¬ cd.owner = origin then (.error .NoPermission, s)
      else if cd.owner = newOwner then (.ok (), s)
      else
        (.ok (), { repatriateS s cd.owner newOwner cd.total_deposit with
          classM := alInsert s.classM c { cd with owner := newOwner } })

/-- Embedding of `set_team` (lib.rs 712-735): signed owner; overwrites the
issuer, admin and freezer roles. -/
def set_team (o : Origin) (c : ClassId) (issuer admin freezer : AccountId)
    (s : State) : Except Err Unit × State :=
  match o with
  | .force => (.error .BadOrigin, s)
  | .signed origin =>
    match alGet s.classM c with
    | none => (.error .Unknown, s)
    | some cd =>
      if ¬ cd.owner = origin then (.error .NoPermission, s)
      else
        (.ok (), { s with classM := (alInsert s.classM c
          { cd with issuer := issuer, admin := admin, freezer := freezer }) })

/-- Embedding of `approve_transfer` (lib.rs 749-769): signed instance
owner; sets `approved`, silently overwriting any prior delegate. -/
def approve_transfer (o : Origin) (c : ClassId) (i : InstanceId)
    (delegate : AccountId) (s : State) : Except Err Unit × State :=
  match o with
  | .force => (.error .BadOrigin, s)
  | .signed origin =>
    match alGet s.asset (c, i) with
    | none => (.error .Unknown, s)
    | some d =>
      if ¬ d.owner = origin then (.error .NoPermission, s)
      else
        (.ok (), { s with
          asset := alInsert s.asset (c, i) { d with approved := some delegate } })

/-- Embedding of `cancel_approval` (lib.rs 785-806): signed instance owner;
`NoDelegate` when no approval exists, `WrongDelegate` on a mismatched
check. -/
def cancel_approval (o : Origin) (c : ClassId) (i : InstanceId)
    (maybe_check_delegate : Option AccountId) (s : State) :
    Except Err Unit × State :=
  match o with
  | .force => (.error .BadOrigin, s)
  | .signed origin =>
    match alGet s.asset (c, i) with
    | none => (.error .Unknown, s)
    | some d =>
      if ¬ d.owner = origin then (.error .NoPermission, s)
      else
        match d.approved with
        | none => (.error .NoDelegate, s)
        | some old =>
          match maybe_check_delegate with
          | some chk =>
            if ¬ chk = old then (.error .WrongDelegate, s)
            else (.ok (), { s with
              asset := alInsert s.asset (c, i) { d with approved := none } })
          | none => (.ok (), { s with
              asset := alInsert s.asset (c, i) { d with approved := none } })

/-- Body of `force_cancel_approval` after its authorization step succeeded
(lib.rs 837-849). -/
def forceCancelRest (c : ClassId) (i : InstanceId)
    (maybe_check_delegate : Option AccountId) (s : State) :
    Except Err Unit × State :=
  match alGet s.asset (c, i) with
  | none => (.error .Unknown, s)
  | some d =>
    match d.approved with
    | none => (.error .NoDelegate, s)
    | some old =>
      match maybe_check_delegate with
      | some chk =>
        if ¬ chk = old then (.error .WrongDelegate, s)
        else (.ok (), { s with
          asset := alInsert s.asset (c, i) { d with approved := none } })
      | none => (.ok (), { s with
          asset := alInsert s.asset (c, i) { d with approved := none } })

/-- Embedding of `force_cancel_approval` (lib.rs 822-850): force origin or
signed class admin; otherwise as `cancel_approval` without the owner
check. -/
def force_cancel_approval (o : Origin) (c : ClassId) (i : InstanceId)
    (maybe_check_delegate : Option AccountId) (s : State) :
    Except Err Unit × State :=
  match o with
  | .force => forceCancelRest c i maybe_check_delegate s
  | .signed origin =>
    match alGet s.classM c with
    | none => (.error .Unknown, s)
    | some cd =>
      if ¬ cd.admin = origin then (.error .NoPermission, s)
      else forceCancelRest c i maybe_check_delegate s

/-- Embedding of `force_asset_status` (lib.rs 870-895): force origin only;
overwrites the four roles, `free_holding` and `is_frozen`, leaving the
deposits and counters untouched. -/
def force_asset_status (o : Origin) (c : ClassId)
    (owner issuer admin freezer : AccountId) (free_holding is_frozen : Bool)
    (s : State) : Except Err Unit × State :=
  match o with
  | .signed _ => (.error .BadOrigin, s)
  | .force =>
    match alGet s.classM c with
    | none => (.error .Unknown, s)
    | some cd =>
      (.ok (), { s with classM := (alInsert s.classM c
        { cd with owner := owner, issuer := issuer, admin := admin,
                  freezer := freezer, free_holding := free_holding,
                  is_frozen := is_frozen }) })

/-- Currency effect of the signed-origin deposit adjustment shared by
`set_metadata` and `set_class_metadata` (lib.rs 951-955, 1066-1070): when
the new deposit exceeds the old one the difference is reserved from the
signer, otherwise the difference is unreserved to the signer. -/
def mdPay (s : State) (w : AccountId) (old dep : Balance) : State :=
  if old < dep then reserveOk s w (dep - old) else unreserveS s w (old - dep)

/-- Storage writes of a successful `set_metadata` (lib.rs 961-971): class
details with `total_deposit` lowered by the old metadata deposit and raised
by the new one (both saturating), and the new `InstanceMetadataOf` entry. -/
def mdCommitI (c : ClassId) (i : InstanceId) (n f : List Nat) (z : Bool)
    (old dep : Balance) (cd : ClassDetails) (s : State) : State :=
  { s with
    classM := (alInsert s.classM c
      { cd with total_deposit := cd.total_deposit - old + dep }),
    instMeta := alInsert s.instMeta (c, i) ⟨dep, n, f, z⟩ }

/-- Embedding of `set_metadata` (lib.rs 916-974): force or signed class
owner; `BadMetadata` beyond `StringLimit`; `Unknown` when the class or the
asset is missing; `Frozen` for an unprivileged origin when the existing
metadata is frozen; under a signed origin the deposit differential is
reserved from or unreserved to the signer, under the force origin the old
deposit is kept. -/
def set_metadata (cfg : Config) (o : Origin) (c : ClassId) (i : InstanceId)
    (n f : List Nat) (z : Bool) (s : State) : Except Err Unit × State :=
  let mco := forceOrSigned o
  if cfg.stringLimit < n.length then (.error .BadMetadata, s)
  else if cfg.stringLimit < f.length then (.error .BadMetadata, s)
  else
    match alGet s.classM c with
    | none => (.error .Unknown, s)
    | some cd =>
      if ¬ ownerOk mco cd.owner then (.error .NoPermission, s)
      else if ¬ alContains s.asset (c, i) then (.error .Unknown, s)
      else
        let was_frozen :=
          match alGet s.instMeta (c, i) with
          | none => false
          | some m => m.is_frozen
        if mco.isSome && was_frozen then (.error .Frozen, s)
        else
          let old := oldInstDeposit s c i
          match mco with
          | some w =>
            let dep := mdDep cfg n f
            if old < dep ∧ s.free w < dep - old then (.error .InsufficientBalance, s)
            else (.ok (), mdCommitI c i n f z old dep cd (mdPay s w old dep))
          | none => (.ok (), mdCommitI c i n f z old old cd s)

/-- Embedding of `clear_metadata` (lib.rs 990-1017): force or signed class
owner; `Frozen` for an unprivileged origin on frozen metadata; unreserves
the metadata deposit from the class owner, lowers `total_deposit` by it and
removes the entry. -/
def clear_metadata (o : Origin) (c : ClassId) (i : InstanceId) (s : State) :
    Except Err Unit × State :=
  let mco := forceOrSigned o
  match alGet s.classM c with
  | none => (.error .Unknown, s)
  | some cd =>
    if ¬ ownerOk mco cd.owner then (.error .NoPermission, s)
    else
      let was_frozen :=
        match alGet s.instMeta (c, i) with
        | none => false
        | some m => m.is_frozen
      if mco.isSome && was_frozen then (.error .Frozen, s)
      else
        match alGet s.instMeta (c, i) with
        | none => (.error .Unknown, s)
        | some md =>
          (.ok (), { unreserveS s cd.owner md.deposit with
            classM := (alInsert s.classM c
              { cd with total_deposit := cd.total_deposit - md.deposit }),
            instMeta := alRemove s.instMeta (c, i) })

/-- Storage writes of a successful `set_class_metadata` (lib.rs 1075-1084):
class details with adjusted `total_deposit`, and the new `ClassMetadataOf`
entry. -/
def mdCommitC (c : ClassId) (n f : List Nat) (z : Bool)
    (old dep : Balance) (cd : ClassDetails) (s : State) : State :=
  { s with
    classM := (alInsert s.classM c
      { cd with total_deposit := cd.total_deposit - old + dep }),
    classMeta := alInsert s.classMeta c ⟨dep, n, f, z⟩ }

/-- Embedding of `set_class_metadata` (lib.rs 1036-1089): as `set_metadata`
but on `ClassMetadataOf` and with no asset-existence check. -/
def set_class_metadata (cfg : Config) (o : Origin) (c : ClassId)
    (n f : List Nat) (z : Bool) (s : State) : Except Err Unit × State :=
  let mco := forceOrSigned o
  if cfg.stringLimit < n.length then (.error .BadMetadata, s)
  else if cfg.stringLimit < f.length then (.error .BadMetadata, s)
  else
    match alGet s.classM c with
    | none => (.error .Unknown, s)
    | some cd =>
      if ¬ ownerOk mco cd.owner then (.error .NoPermission, s)
      else
        let was_frozen :=
          match alGet s.classMeta c with
          | none => false
          | some m => m.is_frozen
        if mco.isSome && was_frozen then (.error .Frozen, s)
        else
          let old := oldClassDeposit s c
          match mco with
          | some w =>
            let dep := mdDep cfg n f
            if old < dep ∧ s.free w < dep - old then (.error .InsufficientBalance, s)
            else (.ok (), mdCommitC c n f z old dep cd (mdPay s w old dep))
          | none => (.ok (), mdCommitC c n f z old old cd s)

/-- Embedding of `clear_class_metadata` (lib.rs 1104-1126): force or signed
class owner; `Frozen` for an unprivileged origin on frozen metadata;
unreserves the stored deposit from the class owner and removes the entry.
Unlike `clear_metadata`, the source never writes the class details back, so
`total_deposit` is left unchanged. -/
def clear_class_metadata (o : Origin) (c : ClassId) (s : State) :
    Except Err Unit × State :=
  let mco := forceOrSigned o
  match alGet s.classM c with
  | none => (.error .Unknown, s)
  | some cd =>
    if ¬ ownerOk mco cd.owner then (.error .NoPermission, s)
    else
      let was_frozen :=
        match alGet s.classMeta c with
        | none => false
        | some m => m.is_frozen
      if mco.isSome && was_frozen then (.error .Frozen, s)
      else
        match alGet s.classMeta c with
        | none => (.error .Unknown, s)
        | some md =>
          (.ok (), { unreserveS s cd.owner md.deposit with
            classMeta := alRemove s.classMeta c })

/-- Example configuration used for the concrete scenarios (the literal
values of spec section 8: `ClassDeposit = 10`, `InstanceDeposit = 1`,
`MetadataDepositBase = 5`, `MetadataDepositPerByte = 1`). -/
def cfgEx : Config := ⟨10, 1, 5, 1, 20⟩

/-- Example configuration with `InstanceDeposit = 0`. -/
def cfgZero : Config := ⟨10, 0, 5, 1, 20⟩

/-- Empty-storage state with free balance 100 on every account. -/
def s0ex : State :=
  ⟨[], [], [], [], [], fun _ => 100, fun _ => 0⟩

/-- State after `create(0, admin = 1)` signed by account 1 from `s0ex`. -/
def s1ex : State := (create cfgEx (.signed 1) 0 1 s0ex).2

/-- State after `set_class_metadata(0, [97, 98], [120], false)` signed by
the class owner 1 (metadata deposit `5 + 3 = 8`). -/
def s2ex : State :=
  (set_class_metadata cfgEx (.signed 1) 0 [97, 98] [120] false s1ex).2

/-- State after `clear_class_metadata(0)` signed by the class owner 1. -/
def s3ex : State := (clear_class_metadata (.signed 1) 0 s2ex).2

/-- State after `force_create(1, owner = 1, free_holding = true)`. -/
def t1ex : State := (force_create .force 1 1 true s0ex).2

/-- State after the free-held `mint(1, 1, beneficiary = 2)` signed by 1. -/
def t2ex : State := (mint cfgEx (.signed 1) 1 1 2 t1ex).2

/-- State after `burn(1, 1, None)` signed by 1 (the class admin). -/
def t3ex : State := (burn (.signed 1) 1 1 none t2ex).2

/-- State after `create(2, admin = 1)` signed by 1 under `cfgZero`. -/
def u1ex : State := (create cfgZero (.signed 1) 2 1 s0ex).2

/-- State after `mint(2, 1, beneficiary = 2)` signed by 1 under `cfgZero`
(a zero `InstanceDeposit`, so the minted instance has deposit 0 although
`free_holding` is false). -/
def u2ex : State := (mint cfgZero (.signed 1) 2 1 2 u1ex).2

/-- Number of live `(c, *)` entries in an `Asset` map. -/
def cntC (m : List ((ClassId × InstanceId) × InstanceDetails)) (c : ClassId) :
    Nat :=
  m.countP (fun p => decide (p.1.1 = c))

/-- Number of live `(c, *)` entries with `deposit = 0` in an `Asset` map. -/
def cntZ (m : List ((ClassId × InstanceId) × InstanceDetails)) (c : ClassId) :
    Nat :=
  m.countP (fun p => decide (p.1.1 = c ∧ p.2.deposit = 0))

/-- Inductive invariant for the instance-counting claim: the asset keys are
distinct, every asset's class exists, and for every stored class the
`instances` counter equals the number of live instances while the number of
zero-deposit instances is bounded by `free_holds`. -/
def GoodMaps (cm : List (ClassId × ClassDetails))
    (am : List ((ClassId × InstanceId) × InstanceDetails)) : Prop :=
  (am.map Prod.fst).Nodup ∧
  (∀ p ∈ am, alContains cm p.1.1 = true) ∧
  (∀ c cd, alGet cm c = some cd →
    cd.instances = cntC am c ∧ cntZ am c ≤ cd.free_holds)

/-- One successful operation of the pallet, any arguments, any origin. -/
inductive Step (cfg : Config) : State → State → Prop where
  | of_create : ∀ o c a s s', create cfg o c a s = (.ok (), s') → Step cfg s s'
  | of_force_create : ∀ o c a fh s s',
      force_create o c a fh s = (.ok (), s') → Step cfg s s'
  | of_destroy : ∀ o c w s s', destroy o c w s = (.ok (), s') → Step cfg s s'
  | of_mint : ∀ o c i b s s', mint cfg o c i b s = (.ok (), s') → Step cfg s s'
  | of_burn : ∀ o c i co s s', burn o c i co s = (.ok (), s') → Step cfg s s'
  | of_transfer : ∀ o c i d s s',
      transfer o c i d s = (.ok (), s') → Step cfg s s'
  | of_freeze : ∀ o c i s s', freeze o c i s = (.ok (), s') → Step cfg s s'
  | of_thaw : ∀ o c i s s', thaw o c i s = (.ok (), s') → Step cfg s s'
  | of_freeze_class : ∀ o c s s',
      freeze_class o c s = (.ok (), s') → Step cfg s s'
  | of_thaw_class : ∀ o c s s',
      thaw_class o c s = (.ok (), s') → Step cfg s s'
  | of_transfer_ownership : ∀ o c a s s',
      transfer_ownership o c a s = (.ok (), s') → Step cfg s s'
  | of_set_team : ∀ o c a b d s s',
      set_team o c a b d s = (.ok (), s') → Step cfg s s'
  | of_approve_transfer : ∀ o c i a s s',
      approve_transfer o c i a s = (.ok (), s') → Step cfg s s'
  | of_cancel_approval : ∀ o c i md s s',
      cancel_approval o c i md s = (.ok (), s') → Step cfg s s'
  | of_force_cancel_approval : ∀ o c i md s s',
      force_cancel_approval o c i md s = (.ok (), s') → Step cfg s s'
  | of_force_asset_status : ∀ o c a b d e fh fz s s',
      force_asset_status o c a b d e fh fz s = (.ok (), s') → Step cfg s s'
  | of_set_metadata : ∀ o c i n f z s s',
      set_metadata cfg o c i n f z s = (.ok (), s') → Step cfg s s'
  | of_clear_metadata : ∀ o c i s s',
      clear_metadata o c i s = (.ok (), s') → Step cfg s s'
  | of_set_class_metadata : ∀ o c n f z s s',
      set_class_metadata cfg o c n f z s = (.ok (), s') → Step cfg s s'
  | of_clear_class_metadata : ∀ o c s s',
      clear_class_metadata o c s = (.ok (), s') → Step cfg s s'

/-- States reachable from empty storage (any external currency balances)
by sequences of successful operations. -/
inductive Reachable (cfg : Config) : State → Prop where
  | init : ∀ fr rs, Reachable cfg ⟨[], [], [], [], [], fr, rs⟩
  | next : ∀ s s', Reachable cfg s → Step cfg s s' → Reachable cfg s'

/-- Empty-storage state with no funds anywhere, for the reserve-failure
scenario. -/
def sPoor : State := ⟨[], [], [], [], [], fun _ => 0, fun _ => 0⟩

/-- Hand-built state for the freeze/thaw role split: class 0 has owner 1,
issuer 1, admin 3 and freezer 2; instance `(0, 0)` is frozen. -/
def vEx : State :=
  ⟨[(0, ⟨1, 1, 3, 2, 0, false, 1, 0, false⟩)],
   [((0, 0), ⟨5, none, true, 0⟩)], [((5, 0, 0), ())], [], [],
   fun _ => 100, fun _ => 0⟩

/-- Hand-built state with a frozen class 9 whose instance `(9, 5)` is owned
by 2 and approved to delegate 4 (class admin is 1). -/
def sFroz : State :=
  ⟨[(9, ⟨1, 1, 1, 1, 0, false, 1, 0, true⟩)],
   [((9, 5), ⟨2, some 4, false, 0⟩)], [((2, 9, 5), ())], [], [],
   fun _ => 100, fun _ => 0⟩

/-- Hand-built state with unfrozen class 8 whose instance `(8, 5)` is owned
by 2 and approved to delegate 4 (class admin is 1). -/
def sDeleg : State :=
  ⟨[(8, ⟨1, 1, 1, 1, 0, false, 1, 0, false⟩)],
   [((8, 5), ⟨2, some 4, false, 0⟩)], [((2, 8, 5), ())], [], [],
   fun _ => 100, fun _ => 0⟩

/-- Hand-built state for the burn scenario: class 3 is frozen, its instance
`(3, 7)` is frozen too, owned by 2 with deposit 1 reserved on the class
owner 1. -/
def wBurn : State :=
  ⟨[(3, ⟨1, 1, 1, 1, 5, false, 1, 0, true⟩)],
   [((3, 7), ⟨2, none, true, 1⟩)], [((2, 3, 7), ())], [], [],
   fun _ => 100, fun a => if a = 1 then 5 else 0⟩

/-- Hand-built state for the owner-transfer scenario: class 4 has admin 9,
instance `(4, 2)` is owned by 2 and approved to delegate 6. -/
def wTrans : State :=
  ⟨[(4, ⟨1, 1, 9, 1, 0, false, 1, 0, false⟩)],
   [((4, 2), ⟨2, some 6, false, 0⟩)], [((2, 4, 2), ())], [], [],
   fun _ => 100, fun _ => 0⟩

/-- State after the paid `mint(0, 0, beneficiary = 2)` signed by the issuer
1 from `s1ex` (one unit reserved from the class owner 1). -/
def m1ex : State := (mint cfgEx (.signed 1) 0 0 2 s1ex).2

/-- State after `set_metadata(0, 0, [97], [], false)` signed by the class
owner 1 from `m1ex` (metadata deposit `5 + 1 = 6`). -/
def m2ex : State := (set_metadata cfgEx (.signed 1) 0 0 [97] [] false m1ex).2

/-- State after `set_metadata(0, 0, [97, 98], [99], true)` signed by 1 from
`m2ex` (metadata deposit `5 + 3 = 8`). -/
def m3ex : State :=
  (set_metadata cfgEx (.signed 1) 0 0 [97, 98] [99] true m2ex).2

/-- State after `set_metadata(0, 0, [97, 98], [99], true)` signed by 1
directly from `m1ex`. -/
def m3ex' : State :=
  (set_metadata cfgEx (.signed 1) 0 0 [97, 98] [99] true m1ex).2

/-- Configuration with `MetadataDepositBase = 0` and
`MetadataDepositPerByte = 2`, so that empty metadata carries deposit 0. -/
def cfgC8 : Config := ⟨10, 1, 0, 2, 20⟩

/-- Hand-built state in which the recorded instance-metadata deposit (10)
exceeds the class owner's reserved balance (4): class 5 owned by 1,
instance `(5, 3)` live, `InstanceMetadataOf[(5, 3)]` stored with deposit
10. -/
def sC8 : State :=
  ⟨[(5, ⟨1, 1, 1, 1, 12, false, 1, 0, false⟩)],
   [((5, 3), ⟨2, none, false, 1⟩)], [((2, 5, 3), ())], [],
   [((5, 3), ⟨10, [97], [], false⟩)],
   fun _ => 100, fun a => if a = 1 then 4 else 0⟩

/-- State after `set_metadata(5, 3, [], [], false)` signed by the class
owner 1 from `sC8` (new deposit 0; the saturating unreserve of 10 returns
only the 4 actually reserved). -/
def sC8x : State := (set_metadata cfgC8 (.signed 1) 5 3 [] [] false sC8).2

/-- State after `set_metadata(5, 3, [97, 98], [99, 100], true)` signed by
1 from `sC8x` (new deposit 8, reserved in full). -/
def sC8xy : State :=
  (set_metadata cfgC8 (.signed 1) 5 3 [97, 98] [99, 100] true sC8x).2

/-- State after `set_metadata(5, 3, [97, 98], [99, 100], true)` signed by
1 directly from `sC8` (old deposit 10, new 8: the saturating unreserve of
2 succeeds). -/
def sC8y : State :=
  (set_metadata cfgC8 (.signed 1) 5 3 [97, 98] [99, 100] true sC8).2

section AssocLemmas

variable {α β : Type} [DecidableEq α]

theorem alGet_cons (p : α × β) (m : List (α × β)) (k : α) :
    alGet (p :: m) k = if p.1 = k then some p.2 else alGet m k := by
  by_cases h : p.1 = k <;> simp [alGet, List.find?_cons, h]

theorem alGet_mem {m : List (α × β)} {k : α} {v : β}
    (h : alGet m k = some v) : (k, v) ∈ m := by
  induction m with
  | nil => simp [alGet] at h
  | cons p t ih =>
    rw [alGet_cons] at h
    by_cases hp : p.1 = k
    · rw [if_pos hp] at h
      cases p with
      | mk a b =>
        obtain rfl : b = v := by simpa using h
        obtain rfl : a = k := hp
        exact List.mem_cons_self _ _
    · rw [if_neg hp] at h
      exact List.mem_cons_of_mem _ (ih h)

theorem alRemove_cons (p : α × β) (m : List (α × β)) (k : α) :
    alRemove (p :: m) k = if p.1 = k then alRemove m k else p :: alRemove m k := by
  by_cases h : p.1 = k <;> simp [alRemove, List.filter_cons, h]

theorem alGet_eq_none_of_not_mem_keys {m : List (α × β)} {k : α}
    (h : k ∉ m.map Prod.fst) : alGet m k = none := by
  induction m with
  | nil => rfl
  | cons p t ih =>
    rw [alGet_cons]
    simp only [List.map_cons, List.mem_cons, not_or] at h
    rw [if_neg (fun hp => h.1 hp.symm)]
    exact ih h.2

theorem alRemove_of_get_none {m : List (α × β)} {k : α}
    (h : alGet m k = none) : alRemove m k = m := by
  induction m with
  | nil => rfl
  | cons p t ih =>
    rw [alGet_cons] at h
    rw [alRemove_cons]
    by_cases hp : p.1 = k
    · rw [if_pos hp] at h; cases h
    · rw [if_neg hp] at h
      rw [if_neg hp, ih h]

theorem alGet_alRemove_self (m : List (α × β)) (k : α) :
    alGet (alRemove m k) k = none := by
  induction m with
  | nil => rfl
  | cons p t ih =>
    rw [alRemove_cons]
    by_cases hp : p.1 = k
    · rw [if_pos hp]; exact ih
    · rw [if_neg hp, alGet_cons, if_neg hp]; exact ih

theorem alGet_alRemove_ne {m : List (α × β)} {k k' : α} (h : ¬ k' = k) :
    alGet (alRemove m k) k' = alGet m k' := by
  induction m with
  | nil => rfl
  | cons p t ih =>
    rw [alRemove_cons, alGet_cons]
    by_cases hp : p.1 = k
    · have hpk : ¬ p.1 = k' := by rw [hp]; exact fun hk => h hk.symm
      rw [if_pos hp, if_neg hpk]
      exact ih
    · rw [if_neg hp, alGet_cons]
      by_cases hq : p.1 = k'
      · rw [if_pos hq, if_pos hq]
      · rw [if_neg hq, if_neg hq]; exact ih

theorem alGet_alInsert_self (m : List (α × β)) (k : α) (v : β) :
    alGet (alInsert m k v) k = some v := by
  rw [alInsert, alGet_cons]; simp

theorem alGet_alInsert_ne {m : List (α × β)} {k k' : α} {v : β}
    (h : ¬ k' = k) : alGet (alInsert m k v) k' = alGet m k' := by
  rw [alInsert, alGet_cons, if_neg (fun hk => h hk.symm)]
  exact alGet_alRemove_ne h

theorem mem_of_mem_alRemove {m : List (α × β)} {k : α} {p : α × β}
    (h : p ∈ alRemove m k) : p ∈ m :=
  List.mem_of_mem_filter h

theorem mem_alInsert {m : List (α × β)} {k : α} {v : β} {p : α × β}
    (h : p ∈ alInsert m k v) : p = (k, v) ∨ p ∈ m := by
  rcases List.mem_cons.mp h with h | h
  · exact Or.inl h
  · exact Or.inr (mem_of_mem_alRemove h)

theorem keys_alRemove (m : List (α × β)) (k : α) :
    (alRemove m k).map Prod.fst
      = (m.map Prod.fst).filter (fun a => decide (¬ a = k)) := by
  induction m with
  | nil => rfl
  | cons p t ih =>
    rw [alRemove_cons]
    by_cases hp : p.1 = k
    · rw [if_pos hp]
      simp [List.filter_cons, hp, ih]
    · rw [if_neg hp]
      simp [List.filter_cons, hp, ih]

theorem nodup_keys_alRemove {m : List (α × β)} (k : α)
    (h : (m.map Prod.fst).Nodup) : ((alRemove m k).map Prod.fst).Nodup := by
  rw [keys_alRemove]
  exact h.filter _

theorem nodup_keys_alInsert {m : List (α × β)} (k : α) (v : β)
    (h : (m.map Prod.fst).Nodup) : ((alInsert m k v).map Prod.fst).Nodup := by
  rw [alInsert, List.map_cons, List.nodup_cons]
  constructor
  · intro hk
    obtain ⟨p, hp, hfst⟩ := List.mem_map.mp hk
    rw [alRemove] at hp
    have hmem := List.mem_filter.mp hp
    simp only [decide_eq_true_eq] at hmem
    exact hmem.2 hfst
  · exact nodup_keys_alRemove k h

theorem alContains_alInsert {m : List (α × β)} {x k : α} {v : β}
    (h : alContains m x = true) : alContains (alInsert m k v) x = true := by
  by_cases hx : x = k
  · subst hx; rw [alContains, alGet_alInsert_self]; rfl
  · rw [alContains, alGet_alInsert_ne hx]; exact h

theorem alGet_isSome_of_contains {m : List (α × β)} {k : α}
    (h : alContains m k = true) : (alGet m k).isSome = true := h

theorem countP_alRemove_some {m : List (α × β)} {k : α} {v : β}
    (P : α × β → Bool) (hnd : (m.map Prod.fst).Nodup)
    (h : alGet m k = some v) :
    m.countP P = (alRemove m k).countP P + (if P (k, v) then 1 else 0) := by
  induction m with
  | nil => simp [alGet] at h
  | cons p t ih =>
    rw [alGet_cons] at h
    rw [List.map_cons, List.nodup_cons] at hnd
    rw [alRemove_cons, List.countP_cons]
    by_cases hp : p.1 = k
    · rw [if_pos hp] at h ⊢
      have hrem : alRemove t k = t := by
        refine alRemove_of_get_none (alGet_eq_none_of_not_mem_keys ?_)
        rw [← hp]; exact hnd.1
      have hv : p.2 = v := by simpa using h
      have hpv : (k, v) = p := by rw [← hp, ← hv]
      rw [hrem, hpv]
    · rw [if_neg hp] at h ⊢
      rw [List.countP_cons, ih hnd.2 h]
      omega

theorem countP_alInsert (m : List (α × β)) (k : α) (v : β)
    (P : α × β → Bool) :
    (alInsert m k v).countP P
      = (alRemove m k).countP P + (if P (k, v) then 1 else 0) := by
  rw [alInsert, List.countP_cons]

theorem countP_alInsert_fresh {m : List (α × β)} {k : α} (v : β)
    (P : α × β → Bool) (h : alGet m k = none) :
    (alInsert m k v).countP P = m.countP P + (if P (k, v) then 1 else 0) := by
  rw [countP_alInsert, alRemove_of_get_none h]

theorem countP_alInsert_same {m : List (α × β)} {k : α} {w : β} (v : β)
    (P : α × β → Bool) (hnd : (m.map Prod.fst).Nodup)
    (h : alGet m k = some w) (hP : P (k, v) = P (k, w)) :
    (alInsert m k v).countP P = m.countP P := by
  rw [countP_alInsert, hP, countP_alRemove_some P hnd h]

end AssocLemmas

section CountLemmas

variable {γ : Type}

theorem countP_ext {l : List γ} {P Q : γ → Bool}
    (h : ∀ a ∈ l, P a = Q a) : l.countP P = l.countP Q := by
  induction l with
  | nil => rfl
  | cons a t ih =>
    rw [List.countP_cons, List.countP_cons,
      h a (List.mem_cons_self a t), ih (fun b hb => h b (List.mem_cons_of_mem a hb))]

theorem countP_filter_comp (l : List γ) (P Q : γ → Bool) :
    (l.filter Q).countP P = l.countP (fun a => P a && Q a) := by
  induction l with
  | nil => rfl
  | cons a t ih =>
    rw [List.filter_cons, List.countP_cons]
    by_cases hq : Q a = true
    · rw [if_pos hq, List.countP_cons, ih, hq]
      simp
    · rw [if_neg hq, ih]
      simp only [Bool.not_eq_true] at hq
      simp [hq]

theorem countP_eq_zero_of {l : List γ} {P : γ → Bool}
    (h : ∀ a ∈ l, P a = false) : l.countP P = 0 := by
  induction l with
  | nil => rfl
  | cons a t ih =>
    rw [List.countP_cons, h a (List.mem_cons_self a t),
      ih (fun b hb => h b (List.mem_cons_of_mem a hb))]
    simp

end CountLemmas

theorem setBal_self (f : AccountId → Balance) (a : AccountId) (v : Balance) :
    setBal f a v a = v := by
  simp [setBal]

theorem setBal_ne (f : AccountId → Balance) {a x : AccountId} (v : Balance)
    (h : ¬ x = a) : setBal f a v x = f x := by
  simp [setBal, h]

@[simp] theorem reserveOk_classM (s : State) (a : AccountId) (v : Balance) :
    (reserveOk s a v).classM = s.classM := rfl

@[simp] theorem reserveOk_asset (s : State) (a : AccountId) (v : Balance) :
    (reserveOk s a v).asset = s.asset := rfl

@[simp] theorem reserveOk_instMeta (s : State) (a : AccountId) (v : Balance) :
    (reserveOk s a v).instMeta = s.instMeta := rfl

@[simp] theorem reserveOk_classMeta (s : State) (a : AccountId) (v : Balance) :
    (reserveOk s a v).classMeta = s.classMeta := rfl

@[simp] theorem unreserveS_classM (s : State) (a : AccountId) (v : Balance) :
    (unreserveS s a v).classM = s.classM := rfl

@[simp] theorem unreserveS_asset (s : State) (a : AccountId) (v : Balance) :
    (unreserveS s a v).asset = s.asset := rfl

@[simp] theorem unreserveS_instMeta (s : State) (a : AccountId) (v : Balance) :
    (unreserveS s a v).instMeta = s.instMeta := rfl

@[simp] theorem unreserveS_classMeta (s : State) (a : AccountId) (v : Balance) :
    (unreserveS s a v).classMeta = s.classMeta := rfl

@[simp] theorem repatriateS_classM (s : State) (a b : AccountId) (v : Balance) :
    (repatriateS s a b v).classM = s.classM := rfl

@[simp] theorem repatriateS_asset (s : State) (a b : AccountId) (v : Balance) :
    (repatriateS s a b v).asset = s.asset := rfl

@[simp] theorem mdPay_classM (s : State) (w : AccountId) (o d : Balance) :
    (mdPay s w o d).classM = s.classM := by
  unfold mdPay; split <;> rfl

@[simp] theorem mdPay_asset (s : State) (w : AccountId) (o d : Balance) :
    (mdPay s w o d).asset = s.asset := by
  unfold mdPay; split <;> rfl

@[simp] theorem mdPay_instMeta (s : State) (w : AccountId) (o d : Balance) :
    (mdPay s w o d).instMeta = s.instMeta := by
  unfold mdPay; split <;> rfl

@[simp] theorem mdPay_classMeta (s : State) (w : AccountId) (o d : Balance) :
    (mdPay s w o d).classMeta = s.classMeta := by
  unfold mdPay; split <;> rfl

@[simp] theorem mintCommit_classM (c : ClassId) (i : InstanceId)
    (b : AccountId) (dep : Balance) (cd1 : ClassDetails) (s : State) :
    (mintCommit c i b dep cd1 s).classM = alInsert s.classM c cd1 := rfl

@[simp] theorem mintCommit_asset (c : ClassId) (i : InstanceId)
    (b : AccountId) (dep : Balance) (cd1 : ClassDetails) (s : State) :
    (mintCommit c i b dep cd1 s).asset
      = alInsert s.asset (c, i) ⟨b, none, false, dep⟩ := rfl

@[simp] theorem transferCommit_classM (c : ClassId) (i : InstanceId)
    (dest : AccountId) (d : InstanceDetails) (ap : Option AccountId)
    (s : State) : (transferCommit c i dest d ap s).classM = s.classM := rfl

@[simp] theorem transferCommit_asset (c : ClassId) (i : InstanceId)
    (dest : AccountId) (d : InstanceDetails) (ap : Option AccountId)
    (s : State) : (transferCommit c i dest d ap s).asset
      = alInsert s.asset (c, i) ⟨dest, ap, d.is_frozen, d.deposit⟩ := rfl

@[simp] theorem mdCommitI_classM (c : ClassId) (i : InstanceId)
    (n f : List Nat) (z : Bool) (old dep : Balance) (cd : ClassDetails)
    (s : State) : (mdCommitI c i n f z old dep cd s).classM
      = alInsert s.classM c
          { cd with total_deposit := cd.total_deposit - old + dep } := rfl

@[simp] theorem mdCommitI_asset (c : ClassId) (i : InstanceId)
    (n f : List Nat) (z : Bool) (old dep : Balance) (cd : ClassDetails)
    (s : State) : (mdCommitI c i n f z old dep cd s).asset = s.asset := rfl

@[simp] theorem mdCommitI_instMeta (c : ClassId) (i : InstanceId)
    (n f : List Nat) (z : Bool) (old dep : Balance) (cd : ClassDetails)
    (s : State) : (mdCommitI c i n f z old dep cd s).instMeta
      = alInsert s.instMeta (c, i) ⟨dep, n, f, z⟩ := rfl

@[simp] theorem mdCommitC_classM (c : ClassId) (n f : List Nat) (z : Bool)
    (old dep : Balance) (cd : ClassDetails) (s : State) :
    (mdCommitC c n f z old dep cd s).classM
      = alInsert s.classM c
          { cd with total_deposit := cd.total_deposit - old + dep } := rfl

@[simp] theorem mdCommitC_asset (c : ClassId) (n f : List Nat) (z : Bool)
    (old dep : Balance) (cd : ClassDetails) (s : State) :
    (mdCommitC c n f z old dep cd s).asset = s.asset := rfl

@[simp] theorem destroyCommit_classM (c : ClassId) (cd : ClassDetails)
    (s : State) : (destroyCommit c cd s).classM = alRemove s.classM c := rfl

@[simp] theorem destroyCommit_asset (c : ClassId) (cd : ClassDetails)
    (s : State) : (destroyCommit c cd s).asset
      = s.asset.filter (fun p => decide (¬ p.1.1 = c)) := rfl

theorem goodMaps_classReplace {cm : List (ClassId × ClassDetails)}
    {am : List ((ClassId × InstanceId) × InstanceDetails)}
    {c : ClassId} {cd cd' : ClassDetails}
    (hG : GoodMaps cm am) (hget : alGet cm c = some cd)
    (hi : cd'.instances = cd.instances) (hf : cd'.free_holds = cd.free_holds) :
    GoodMaps (alInsert cm c cd') am := by
  obtain ⟨hnd, hlive, hcnt⟩ := hG
  refine ⟨hnd, fun p hp => alContains_alInsert (hlive p hp), ?_⟩
  intro c2 cd2 hget2
  by_cases hc : c2 = c
  · subst hc
    rw [alGet_alInsert_self] at hget2
    obtain rfl : cd' = cd2 := by simpa using hget2
    obtain ⟨h1, h2⟩ := hcnt c2 cd hget
    exact ⟨hi.trans h1, h2.trans_eq hf.symm⟩
  · rw [alGet_alInsert_ne hc] at hget2
    exact hcnt c2 cd2 hget2

theorem goodMaps_assetReplace {cm : List (ClassId × ClassDetails)}
    {am : List ((ClassId × InstanceId) × InstanceDetails)}
    {k : ClassId × InstanceId} {d v : InstanceDetails}
    (hG : GoodMaps cm am) (hget : alGet am k = some d)
    (hdep : v.deposit = d.deposit) :
    GoodMaps cm (alInsert am k v) := by
  obtain ⟨hnd, hlive, hcnt⟩ := hG
  refine ⟨nodup_keys_alInsert k v hnd, ?_, ?_⟩
  · intro p hp
    rcases mem_alInsert hp with rfl | hmem
    · exact hlive (k, d) (alGet_mem hget)
    · exact hlive p hmem
  · intro c2 cd2 hget2
    obtain ⟨h1, h2⟩ := hcnt c2 cd2 hget2
    have hC : cntC (alInsert am k v) c2 = cntC am c2 := by
      exact countP_alInsert_same v _ hnd hget rfl
    have hZ : cntZ (alInsert am k v) c2 = cntZ am c2 := by
      refine countP_alInsert_same v _ hnd hget ?_
      simp [hdep]
    rw [hC, hZ]
    exact ⟨h1, h2⟩

theorem goodMaps_mint {cm : List (ClassId × ClassDetails)}
    {am : List ((ClassId × InstanceId) × InstanceDetails)}
    {c : ClassId} {i : InstanceId} {b : AccountId} {dep : Balance}
    {cd cd1 : ClassDetails}
    (hG : GoodMaps cm am) (hnone : alGet am (c, i) = none)
    (hget : alGet cm c = some cd)
    (h1 : cd1.instances = cd.instances + 1)
    (h2 : (dep = 0 ∧ cd1.free_holds = cd.free_holds + 1) ∨
          (¬ dep = 0 ∧ cd1.free_holds = cd.free_holds)) :
    GoodMaps (alInsert cm c cd1)
      (alInsert am (c, i) ⟨b, none, false, dep⟩) := by
  obtain ⟨hnd, hlive, hcnt⟩ := hG
  refine ⟨nodup_keys_alInsert _ _ hnd, ?_, ?_⟩
  · intro p hp
    rcases mem_alInsert hp with rfl | hmem
    · rw [alContains, alGet_alInsert_self]; rfl
    · exact alContains_alInsert (hlive p hmem)
  · intro c2 cd2 hget2
    by_cases hc : c2 = c
    · subst hc
      rw [alGet_alInsert_self] at hget2
      obtain rfl : cd1 = cd2 := by simpa using hget2
      obtain ⟨hC, hZ⟩ := hcnt c2 cd hget
      have hC' : cntC (alInsert am (c2, i) ⟨b, none, false, dep⟩) c2
          = cntC am c2 + 1 := by
        simp only [cntC]
        rw [countP_alInsert_fresh _ _ hnone, if_pos (by simp)]
      have hZ' : cntZ (alInsert am (c2, i) ⟨b, none, false, dep⟩) c2
          = cntZ am c2 + (if dep = 0 then 1 else 0) := by
        simp only [cntZ]
        rw [countP_alInsert_fresh _ _ hnone]
        by_cases hd : dep = 0
        · rw [if_pos hd, if_pos (by simp [hd])]
        · rw [if_neg hd, if_neg (by simp [hd])]
      constructor
      · rw [h1, hC, hC']
      · rw [hZ']
        rcases h2 with ⟨hd, hfh⟩ | ⟨hd, hfh⟩
        · rw [hfh, if_pos hd]; omega
        · rw [hfh, if_neg hd]; omega
    · rw [alGet_alInsert_ne hc] at hget2
      obtain ⟨hC, hZ⟩ := hcnt c2 cd2 hget2
      have hne : ¬ (c = c2) := fun hcc => hc hcc.symm
      have hC' : cntC (alInsert am (c, i) ⟨b, none, false, dep⟩) c2
          = cntC am c2 := by
        simp only [cntC]
        rw [countP_alInsert_fresh _ _ hnone, if_neg (by simpa using hne)]
        omega
      have hZ' : cntZ (alInsert am (c, i) ⟨b, none, false, dep⟩) c2
          = cntZ am c2 := by
        simp only [cntZ]
        rw [countP_alInsert_fresh _ _ hnone, if_neg (by simp [hne])]
        omega
      rw [hC', hZ']
      exact ⟨hC, hZ⟩

theorem goodMaps_burn {cm : List (ClassId × ClassDetails)}
    {am : List ((ClassId × InstanceId) × InstanceDetails)}
    {c : ClassId} {i : InstanceId} {d : InstanceDetails}
    {cd cd1 : ClassDetails}
    (hG : GoodMaps cm am) (hget : alGet am (c, i) = some d)
    (hgetC : alGet cm c = some cd)
    (h1 : cd1.instances = cd.instances - 1)
    (h2 : cd1.free_holds = cd.free_holds) :
    GoodMaps (alInsert cm c cd1) (alRemove am (c, i)) := by
  obtain ⟨hnd, hlive, hcnt⟩ := hG
  refine ⟨nodup_keys_alRemove _ hnd, ?_, ?_⟩
  · intro p hp
    exact alContains_alInsert (hlive p (mem_of_mem_alRemove hp))
  · intro c2 cd2 hget2
    have hsplitC := countP_alRemove_some
      (fun p => decide (p.1.1 = c2)) hnd hget
    have hsplitZ := countP_alRemove_some
      (fun p => decide (p.1.1 = c2 ∧ p.2.deposit = 0)) hnd hget
    by_cases hc : c2 = c
    · subst hc
      rw [alGet_alInsert_self] at hget2
      obtain rfl : cd1 = cd2 := by simpa using hget2
      obtain ⟨hC, hZ⟩ := hcnt c2 cd hgetC
      rw [if_pos (by simp)] at hsplitC
      constructor
      · rw [h1, hC]
        simp only [cntC] at hsplitC ⊢
        omega
      · rw [h2]
        refine le_trans ?_ hZ
        simp only [cntZ] at hsplitZ ⊢
        by_cases hd0 : d.deposit = 0
        · rw [if_pos (by simp [hd0])] at hsplitZ
          omega
        · rw [if_neg (by simp [hd0])] at hsplitZ
          omega
    · rw [alGet_alInsert_ne hc] at hget2
      obtain ⟨hC, hZ⟩ := hcnt c2 cd2 hget2
      have hne : ¬ (c = c2) := fun hcc => hc hcc.symm
      rw [if_neg (by simpa using hne)] at hsplitC
      rw [if_neg (by simp [hne])] at hsplitZ
      constructor
      · rw [hC]
        simp only [cntC] at hsplitC ⊢
        omega
      · refine le_trans ?_ hZ
        simp only [cntZ] at hsplitZ ⊢
        omega

theorem goodMaps_destroy {cm : List (ClassId × ClassDetails)}
    {am : List ((ClassId × InstanceId) × InstanceDetails)} (c : ClassId)
    (hG : GoodMaps cm am) :
    GoodMaps (alRemove cm c) (am.filter (fun p => decide (¬ p.1.1 = c))) := by
  obtain ⟨hnd, hlive, hcnt⟩ := hG
  refine ⟨?_, ?_, ?_⟩
  · exact List.Nodup.sublist (List.Sublist.map _ (List.filter_sublist am)) hnd
  · intro p hp
    have hmem := List.mem_filter.mp hp
    have hne : ¬ p.1.1 = c := by simpa using hmem.2
    rw [alContains, alGet_alRemove_ne hne]
    exact hlive p hmem.1
  · intro c2 cd2 hget2
    have hne : ¬ c2 = c := by
      intro hcc
      rw [hcc, alGet_alRemove_self] at hget2
      cases hget2
    rw [alGet_alRemove_ne hne] at hget2
    obtain ⟨hC, hZ⟩ := hcnt c2 cd2 hget2
    have hCf : cntC (am.filter (fun p => decide (¬ p.1.1 = c))) c2
        = cntC am c2 := by
      rw [cntC, countP_filter_comp, cntC]
      refine countP_ext ?_
      intro p _
      by_cases hp : p.1.1 = c2 <;> simp [hp, hne]
    have hZf : cntZ (am.filter (fun p => decide (¬ p.1.1 = c))) c2
        = cntZ am c2 := by
      rw [cntZ, countP_filter_comp, cntZ]
      refine countP_ext ?_
      intro p _
      by_cases hp : p.1.1 = c2 <;> by_cases hq : p.2.deposit = 0 <;>
        simp [hp, hq, hne]
    rw [hCf, hZf]
    exact ⟨hC, hZ⟩

theorem goodMaps_create {cm : List (ClassId × ClassDetails)}
    {am : List ((ClassId × InstanceId) × InstanceDetails)}
    {c : ClassId} {cd0 : ClassDetails}
    (hG : GoodMaps cm am) (hnone : alGet cm c = none)
    (h0 : cd0.instances = 0) (h1 : cd0.free_holds = 0) :
    GoodMaps (alInsert cm c cd0) am := by
  obtain ⟨hnd, hlive, hcnt⟩ := hG
  refine ⟨hnd, fun p hp => alContains_alInsert (hlive p hp), ?_⟩
  intro c2 cd2 hget2
  by_cases hc : c2 = c
  · subst hc
    rw [alGet_alInsert_self] at hget2
    obtain rfl : cd0 = cd2 := by simpa using hget2
    have hCz : cntC am c2 = 0 := by
      refine countP_eq_zero_of ?_
      intro p hp
      by_cases hpc : p.1.1 = c2
      · exfalso
        have := hlive p hp
        rw [hpc, alContains, hnone] at this
        cases this
      · simpa using hpc
    have hZz : cntZ am c2 = 0 := by
      refine countP_eq_zero_of ?_
      intro p hp
      by_cases hpc : p.1.1 = c2
      · exfalso
        have := hlive p hp
        rw [hpc, alContains, hnone] at this
        cases this
      · simp [hpc]
    rw [hCz, hZz, h0, h1]
    exact ⟨rfl, le_refl 0⟩
  · rw [alGet_alInsert_ne hc] at hget2
    exact hcnt c2 cd2 hget2

theorem alGet_eq_none_of_not_contains {α β : Type} [DecidableEq α]
    {m : List (α × β)} {k : α} (h : ¬ alContains m k = true) :
    alGet m k = none := by
  rw [alContains] at h
  exact Option.not_isSome_iff_eq_none.mp h

theorem good_create {cfg : Config} {o : Origin} {c : ClassId}
    {a : AccountId} {s s' : State} (h : create cfg o c a s = (.ok (), s'))
    (hG : GoodMaps s.classM s.asset) : GoodMaps s'.classM s'.asset := by
  cases o with
  | force => simp [create] at h
  | signed w =>
    simp only [create] at h
    by_cases h1 : alContains s.classM c = true
    · rw [if_pos h1] at h; simp at h
    · rw [if_neg h1] at h
      by_cases h2 : s.free w < cfg.classDeposit
      · rw [if_pos h2] at h; simp at h
      · rw [if_neg h2] at h
        simp only [Prod.mk.injEq] at h
        obtain ⟨-, rfl⟩ := h
        exact goodMaps_create hG (alGet_eq_none_of_not_contains h1) rfl rfl

theorem good_transfer {o : Origin} {c : ClassId} {i : InstanceId}
    {dest : AccountId} {s s' : State}
    (h : transfer o c i dest s = (.ok (), s'))
    (hG : GoodMaps s.classM s.asset) : GoodMaps s'.classM s'.asset := by
  cases o with
  | force => simp [transfer] at h
  | signed w =>
    simp only [transfer] at h
    cases hcd : alGet s.classM c with
    | none => simp only [hcd] at h; simp at h
    | some cd =>
      simp only [hcd] at h
      by_cases h1 : cd.is_frozen = true
      · simp only [h1, if_true] at h; simp at h
      · simp only [Bool.not_eq_true] at h1
        simp only [h1, Bool.false_eq_true, if_false] at h
        cases hd : alGet s.asset (c, i) with
        | none => simp only [hd] at h; simp at h
        | some d =>
          simp only [hd] at h
          by_cases h2 : d.is_frozen = true
          · simp only [h2, if_true] at h; simp at h
          · simp only [Bool.not_eq_true] at h2
            simp only [h2, Bool.false_eq_true, if_false] at h
            by_cases h3 : d.owner = w ∨ cd.admin = w
            · rw [if_pos h3] at h
              simp only [Prod.mk.injEq] at h
              obtain ⟨-, rfl⟩ := h
              simp only [transferCommit_classM, transferCommit_asset]
              exact goodMaps_assetReplace hG hd rfl
            · rw [if_neg h3] at h
              cases hap : d.approved with
              | none => simp only [hap] at h; simp at h
              | some ap =>
                simp only [hap] at h
                by_cases h4 : ap = w
                · rw [if_pos h4] at h
                  simp only [Prod.mk.injEq] at h
                  obtain ⟨-, rfl⟩ := h
                  simp only [transferCommit_classM, transferCommit_asset]
                  exact goodMaps_assetReplace hG hd rfl
                · rw [if_neg h4] at h; simp at h

theorem good_force_create {o : Origin} {c : ClassId} {a : AccountId}
    {fh : Bool} {s s' : State} (h : force_create o c a fh s = (.ok (), s'))
    (hG : GoodMaps s.classM s.asset) : GoodMaps s'.classM s'.asset := by
  cases o with
  | signed w => simp [force_create] at h
  | force =>
    simp only [force_create] at h
    by_cases h1 : alContains s.classM c = true
    · rw [if_pos h1] at h; simp at h
    · rw [if_neg h1] at h
      simp only [Prod.mk.injEq] at h
      obtain ⟨-, rfl⟩ := h
      exact goodMaps_create hG (alGet_eq_none_of_not_contains h1) rfl rfl

theorem good_destroy {o : Origin} {c : ClassId} {w : DestroyWitness}
    {s s' : State} (h : destroy o c w s = (.ok (), s'))
    (hG : GoodMaps s.classM s.asset) : GoodMaps s'.classM s'.asset := by
  have hcheck : ∀ cd : ClassDetails, destroyCheck c cd w s = (.ok (), s') →
      GoodMaps s'.classM s'.asset := by
    intro cd hc
    simp only [destroyCheck] at hc
    by_cases h1 : ¬ cd.instances = w.instances
    · rw [if_pos h1] at hc; simp at hc
    · rw [if_neg h1] at hc
      by_cases h2 : ¬ cd.free_holds = w.free_holds
      · rw [if_pos h2] at hc; simp at hc
      · rw [if_neg h2] at hc
        simp only [Prod.mk.injEq] at hc
        obtain ⟨-, rfl⟩ := hc
        simp only [destroyCommit_classM, destroyCommit_asset]
        exact goodMaps_destroy c hG
  cases o with
  | force =>
    simp only [destroy, forceOrSigned] at h
    cases hcd : alGet s.classM c with
    | none => simp only [hcd] at h; simp at h
    | some cd =>
      simp only [hcd] at h
      exact hcheck cd h
  | signed a =>
    simp only [destroy, forceOrSigned] at h
    cases hcd : alGet s.classM c with
    | none => simp only [hcd] at h; simp at h
    | some cd =>
      simp only [hcd] at h
      by_cases h1 : ¬ cd.owner = a
      · rw [if_pos h1] at h; simp at h
      · rw [if_neg h1] at h
        exact hcheck cd h

theorem good_mint {cfg : Config} {o : Origin} {c : ClassId} {i : InstanceId}
    {b : AccountId} {s s' : State} (hdep : 0 < cfg.instanceDeposit)
    (h : mint cfg o c i b s = (.ok (), s'))
    (hG : GoodMaps s.classM s.asset) : GoodMaps s'.classM s'.asset := by
  cases o with
  | force => simp [mint] at h
  | signed w =>
    simp only [mint] at h
    by_cases h1 : alContains s.asset (c, i) = true
    · rw [if_pos h1] at h; simp at h
    · rw [if_neg h1] at h
      have hnone := alGet_eq_none_of_not_contains h1
      cases hcd : alGet s.classM c with
      | none => simp only [hcd] at h; simp at h
      | some cd =>
        simp only [hcd] at h
        by_cases h2 : ¬ cd.issuer = w
        · rw [if_pos h2] at h; simp at h
        · rw [if_neg h2] at h
          by_cases h3 : 2 ^ 32 ≤ cd.instances + 1
          · rw [if_pos h3] at h; simp at h
          · rw [if_neg h3] at h
            by_cases h4 : cd.free_holding = true
            · simp only [h4, if_true] at h
              simp only [Prod.mk.injEq] at h
              obtain ⟨-, rfl⟩ := h
              simp only [mintCommit_classM, mintCommit_asset]
              exact goodMaps_mint hG hnone hcd rfl (Or.inl ⟨rfl, rfl⟩)
            · simp only [Bool.not_eq_true] at h4
              simp only [h4, Bool.false_eq_true, if_false] at h
              by_cases h5 : s.free cd.owner < cfg.instanceDeposit
              · rw [if_pos h5] at h; simp at h
              · rw [if_neg h5] at h
                simp only [Prod.mk.injEq] at h
                obtain ⟨-, rfl⟩ := h
                simp only [mintCommit_classM, mintCommit_asset]
                exact goodMaps_mint hG hnone hcd rfl
                  (Or.inr ⟨Nat.pos_iff_ne_zero.mp hdep, rfl⟩)

theorem good_burn {o : Origin} {c : ClassId} {i : InstanceId}
    {co : Option AccountId} {s s' : State}
    (h : burn o c i co s = (.ok (), s'))
    (hG : GoodMaps s.classM s.asset) : GoodMaps s'.classM s'.asset := by
  cases o with
  | force => simp [burn] at h
  | signed w =>
    simp only [burn] at h
    cases hcd : alGet s.classM c with
    | none => simp only [hcd] at h; simp at h
    | some cd =>
      simp only [hcd] at h
      cases hd : alGet s.asset (c, i) with
      | none => simp only [hd] at h; simp at h
      | some d =>
        simp only [hd] at h
        by_cases h1 : ¬ (cd.admin = w ∨ d.owner = w)
        · rw [if_pos h1] at h; simp at h
        · rw [if_neg h1] at h
          by_cases h2 : ¬ ownerOk co d.owner = true
          · rw [if_pos h2] at h; simp at h
          · rw [if_neg h2] at h
            cases hm : alGet s.instMeta (c, i) with
            | none =>
              simp only [hm] at h
              simp only [Prod.mk.injEq] at h
              obtain ⟨-, rfl⟩ := h
              exact goodMaps_burn hG hd hcd rfl rfl
            | some md =>
              simp only [hm] at h
              simp only [Prod.mk.injEq] at h
              obtain ⟨-, rfl⟩ := h
              exact goodMaps_burn hG hd hcd rfl rfl

theorem good_freeze {o : Origin} {c : ClassId} {i : InstanceId}
    {s s' : State} (h : freeze o c i s = (.ok (), s'))
    (hG : GoodMaps s.classM s.asset) : GoodMaps s'.classM s'.asset := by
  cases o with
  | force => simp [freeze] at h
  | signed w =>
    simp only [freeze] at h
    cases hd : alGet s.asset (c, i) with
    | none => simp only [hd] at h; simp at h
    | some d =>
      simp only [hd] at h
      cases hcd : alGet s.classM c with
      | none => simp only [hcd] at h; simp at h
      | some cd =>
        simp only [hcd] at h
        by_cases h1 : ¬ cd.freezer = w
        · rw [if_pos h1] at h; simp at h
        · rw [if_neg h1] at h
          simp only [Prod.mk.injEq] at h
          obtain ⟨-, rfl⟩ := h
          exact goodMaps_assetReplace hG hd rfl

theorem good_thaw {o : Origin} {c : ClassId} {i : InstanceId}
    {s s' : State} (h : thaw o c i s = (.ok (), s'))
    (hG : GoodMaps s.classM s.asset) : GoodMaps s'.classM s'.asset := by
  cases o with
  | force => simp [thaw] at h
  | signed w =>
    simp only [thaw] at h
    cases hd : alGet s.asset (c, i) with
    | none => simp only [hd] at h; simp at h
    | some d =>
      simp only [hd] at h
      cases hcd : alGet s.classM c with
      | none => simp only [hcd] at h; simp at h
      | some cd =>
        simp only [hcd] at h
        by_cases h1 : ¬ cd.admin = w
        · rw [if_pos h1] at h; simp at h
        · rw [if_neg h1] at h
          simp only [Prod.mk.injEq] at h
          obtain ⟨-, rfl⟩ := h
          exact goodMaps_assetReplace hG hd rfl

theorem good_freeze_class {o : Origin} {c : ClassId} {s s' : State}
    (h : freeze_class o c s = (.ok (), s'))
    (hG : GoodMaps s.classM s.asset) : GoodMaps s'.classM s'.asset := by
  cases o with
  | force => simp [freeze_class] at h
  | signed w =>
    simp only [freeze_class] at h
    cases hcd : alGet s.classM c with
    | none => simp only [hcd] at h; simp at h
    | some cd =>
      simp only [hcd] at h
      by_cases h1 : ¬ cd.freezer = w
      · rw [if_pos h1] at h; simp at h
      · rw [if_neg h1] at h
        simp only [Prod.mk.injEq] at h
        obtain ⟨-, rfl⟩ := h
        exact goodMaps_classReplace hG hcd rfl rfl

theorem good_thaw_class {o : Origin} {c : ClassId} {s s' : State}
    (h : thaw_class o c s = (.ok (), s'))
    (hG : GoodMaps s.classM s.asset) : GoodMaps s'.classM s'.asset := by
  cases o with
  | force => simp [thaw_class] at h
  | signed w =>
    simp only [thaw_class] at h
    cases hcd : alGet s.classM c with
    | none => simp only [hcd] at h; simp at h
    | some cd =>
      simp only [hcd] at h
      by_cases h1 : ¬ cd.admin = w
      · rw [if_pos h1] at h; simp at h
      · rw [if_neg h1] at h
        simp only [Prod.mk.injEq] at h
        obtain ⟨-, rfl⟩ := h
        exact goodMaps_classReplace hG hcd rfl rfl

theorem good_transfer_ownership {o : Origin} {c : ClassId} {a : AccountId}
    {s s' : State} (h : transfer_ownership o c a s = (.ok (), s'))
    (hG : GoodMaps s.classM s.asset) : GoodMaps s'.classM s'.asset := by
  cases o with
  | force => simp [transfer_ownership] at h
  | signed w =>
    simp only [transfer_ownership] at h
    cases hcd : alGet s.classM c with
    | none => simp only [hcd] at h; simp at h
    | some cd =>
      simp only [hcd] at h
      by_cases h1 : ¬ cd.owner = w
      · rw [if_pos h1] at h; simp at h
      · rw [if_neg h1] at h
        by_cases h2 : cd.owner = a
        · rw [if_pos h2] at h
          simp only [Prod.mk.injEq] at h
          obtain ⟨-, rfl⟩ := h
          exact hG
        · rw [if_neg h2] at h
          simp only [Prod.mk.injEq] at h
          obtain ⟨-, rfl⟩ := h
          exact goodMaps_classReplace hG hcd rfl rfl

theorem good_set_team {o : Origin} {c : ClassId} {a b d : AccountId}
    {s s' : State} (h : set_team o c a b d s = (.ok (), s'))
    (hG : GoodMaps s.classM s.asset) : GoodMaps s'.classM s'.asset := by
  cases o with
  | force => simp [set_team] at h
  | signed w =>
    simp only [set_team] at h
    cases hcd : alGet s.classM c with
    | none => simp only [hcd] at h; simp at h
    | some cd =>
      simp only [hcd] at h
      by_cases h1 : ¬ cd.owner = w
      · rw [if_pos h1] at h; simp at h
      · rw [if_neg h1] at h
        simp only [Prod.mk.injEq] at h
        obtain ⟨-, rfl⟩ := h
        exact goodMaps_classReplace hG hcd rfl rfl

theorem good_approve_transfer {o : Origin} {c : ClassId} {i : InstanceId}
    {a : AccountId} {s s' : State}
    (h : approve_transfer o c i a s = (.ok (), s'))
    (hG : GoodMaps s.classM s.asset) : GoodMaps s'.classM s'.asset := by
  cases o with
  | force => simp [approve_transfer] at h
  | signed w =>
    simp only [approve_transfer] at h
    cases hd : alGet s.asset (c, i) with
    | none => simp only [hd] at h; simp at h
    | some d =>
      simp only [hd] at h
      by_cases h1 : ¬ d.owner = w
      · rw [if_pos h1] at h; simp at h
      · rw [if_neg h1] at h
        simp only [Prod.mk.injEq] at h
        obtain ⟨-, rfl⟩ := h
        exact goodMaps_assetReplace hG hd rfl

theorem good_cancel_approval {o : Origin} {c : ClassId} {i : InstanceId}
    {md : Option AccountId} {s s' : State}
    (h : cancel_approval o c i md s = (.ok (), s'))
    (hG : GoodMaps s.classM s.asset) : GoodMaps s'.classM s'.asset := by
  cases o with
  | force => simp [cancel_approval] at h
  | signed w =>
    simp only [cancel_approval] at h
    cases hd : alGet s.asset (c, i) with
    | none => simp only [hd] at h; simp at h
    | some d =>
      simp only [hd] at h
      by_cases h1 : ¬ d.owner = w
      · rw [if_pos h1] at h; simp at h
      · rw [if_neg h1] at h
        cases hap : d.approved with
        | none => simp only [hap] at h; simp at h
        | some old =>
          cases md with
          | none =>
            simp only [hap] at h
            simp only [Prod.mk.injEq] at h
            obtain ⟨-, rfl⟩ := h
            exact goodMaps_assetReplace hG hd rfl
          | some chk =>
            simp only [hap] at h
            by_cases h2 : ¬ chk = old
            · rw [if_pos h2] at h; simp at h
            · rw [if_neg h2] at h
              simp only [Prod.mk.injEq] at h
              obtain ⟨-, rfl⟩ := h
              exact goodMaps_assetReplace hG hd rfl

theorem good_forceCancelRest {c : ClassId} {i : InstanceId}
    {md : Option AccountId} {s s' : State}
    (h : forceCancelRest c i md s = (.ok (), s'))
    (hG : GoodMaps s.classM s.asset) : GoodMaps s'.classM s'.asset := by
  simp only [forceCancelRest] at h
  cases hd : alGet s.asset (c, i) with
  | none => simp only [hd] at h; simp at h
  | some d =>
    simp only [hd] at h
    cases hap : d.approved with
    | none => simp only [hap] at h; simp at h
    | some old =>
      cases md with
      | none =>
        simp only [hap] at h
        simp only [Prod.mk.injEq] at h
        obtain ⟨-, rfl⟩ := h
        exact goodMaps_assetReplace hG hd rfl
      | some chk =>
        simp only [hap] at h
        by_cases h3 : ¬ chk = old
        · rw [if_pos h3] at h; simp at h
        · rw [if_neg h3] at h
          simp only [Prod.mk.injEq] at h
          obtain ⟨-, rfl⟩ := h
          exact goodMaps_assetReplace hG hd rfl

theorem good_force_cancel_approval {o : Origin} {c : ClassId}
    {i : InstanceId} {md : Option AccountId} {s s' : State}
    (h : force_cancel_approval o c i md s = (.ok (), s'))
    (hG : GoodMaps s.classM s.asset) : GoodMaps s'.classM s'.asset := by
  cases o with
  | force =>
    simp only [force_cancel_approval] at h
    exact good_forceCancelRest h hG
  | signed w =>
    simp only [force_cancel_approval] at h
    cases hcd : alGet s.classM c with
    | none => simp only [hcd] at h; simp at h
    | some cd =>
      simp only [hcd] at h
      by_cases h1 : ¬ cd.admin = w
      · rw [if_pos h1] at h; simp at h
      · rw [if_neg h1] at h
        exact good_forceCancelRest h hG

theorem good_force_asset_status {o : Origin} {c : ClassId}
    {a b d e : AccountId} {fh fz : Bool} {s s' : State}
    (h : force_asset_status o c a b d e fh fz s = (.ok (), s'))
    (hG : GoodMaps s.classM s.asset) : GoodMaps s'.classM s'.asset := by
  cases o with
  | signed w => simp [force_asset_status] at h
  | force =>
    simp only [force_asset_status] at h
    cases hcd : alGet s.classM c with
    | none => simp only [hcd] at h; simp at h
    | some cd =>
      simp only [hcd] at h
      simp only [Prod.mk.injEq] at h
      obtain ⟨-, rfl⟩ := h
      exact goodMaps_classReplace hG hcd rfl rfl

theorem good_set_metadata {cfg : Config} {o : Origin} {c : ClassId}
    {i : InstanceId} {n f : List Nat} {z : Bool} {s s' : State}
    (h : set_metadata cfg o c i n f z s = (.ok (), s'))
    (hG : GoodMaps s.classM s.asset) : GoodMaps s'.classM s'.asset := by
  cases o with
  | force =>
    simp only [set_metadata, forceOrSigned, ownerOk] at h
    by_cases h1 : cfg.stringLimit < n.length
    · rw [if_pos h1] at h; simp at h
    · rw [if_neg h1] at h
      by_cases h2 : cfg.stringLimit < f.length
      · rw [if_pos h2] at h; simp at h
      · rw [if_neg h2] at h
        cases hcd : alGet s.classM c with
        | none => simp only [hcd] at h; simp at h
        | some cd =>
          simp only [hcd] at h
          rw [if_neg (by simp)] at h
          by_cases h3 : alContains s.asset (c, i) = true
          · rw [if_neg (by simp [h3])] at h
            simp only [Option.isSome_none, Bool.false_and,
              Bool.false_eq_true, if_false] at h
            simp only [Prod.mk.injEq] at h
            obtain ⟨-, rfl⟩ := h
            simp only [mdCommitI_classM, mdCommitI_asset]
            exact goodMaps_classReplace hG hcd rfl rfl
          · rw [if_pos (by simp [h3])] at h; simp at h
  | signed w =>
    simp only [set_metadata, forceOrSigned, ownerOk] at h
    by_cases h1 : cfg.stringLimit < n.length
    · rw [if_pos h1] at h; simp at h
    · rw [if_neg h1] at h
      by_cases h2 : cfg.stringLimit < f.length
      · rw [if_pos h2] at h; simp at h
      · rw [if_neg h2] at h
        cases hcd : alGet s.classM c with
        | none => simp only [hcd] at h; simp at h
        | some cd =>
          simp only [hcd] at h
          by_cases h0 : w = cd.owner
          · rw [if_neg (by simp [h0])] at h
            by_cases h3 : alContains s.asset (c, i) = true
            · rw [if_neg (by simp [h3])] at h
              cases hm : alGet s.instMeta (c, i) with
              | none =>
                simp only [hm] at h
                simp only [Option.isSome_some, Bool.true_and,
                  Bool.and_false, Bool.false_eq_true, if_false] at h
                by_cases h4 : oldInstDeposit s c i < mdDep cfg n f ∧
                    s.free w < mdDep cfg n f - oldInstDeposit s c i
                · rw [if_pos h4] at h; simp at h
                · rw [if_neg h4] at h
                  simp only [Prod.mk.injEq] at h
                  obtain ⟨-, rfl⟩ := h
                  simp only [mdCommitI_classM, mdCommitI_asset,
                    mdPay_classM, mdPay_asset]
                  exact goodMaps_classReplace hG hcd rfl rfl
              | some m =>
                simp only [hm] at h
                by_cases h5 : m.is_frozen = true
                · simp only [h5, Option.isSome_some, Bool.true_and,
                    if_true] at h
                  simp at h
                · simp only [Bool.not_eq_true] at h5
                  simp only [h5, Option.isSome_some, Bool.true_and,
                    Bool.and_false, Bool.false_eq_true, if_false] at h
                  by_cases h4 : oldInstDeposit s c i < mdDep cfg n f ∧
                      s.free w < mdDep cfg n f - oldInstDeposit s c i
                  · rw [if_pos h4] at h; simp at h
                  · rw [if_neg h4] at h
                    simp only [Prod.mk.injEq] at h
                    obtain ⟨-, rfl⟩ := h
                    simp only [mdCommitI_classM, mdCommitI_asset,
                      mdPay_classM, mdPay_asset]
                    exact goodMaps_classReplace hG hcd rfl rfl
            · rw [if_pos (by simp [h3])] at h; simp at h
          · rw [if_pos (by simp [h0])] at h; simp at h

theorem good_clear_metadata {o : Origin} {c : ClassId} {i : InstanceId}
    {s s' : State} (h : clear_metadata o c i s = (.ok (), s'))
    (hG : GoodMaps s.classM s.asset) : GoodMaps s'.classM s'.asset := by
  have hrest : ∀ cd : ClassDetails, alGet s.classM c = some cd →
      ∀ h2 : (match alGet s.instMeta (c, i) with
        | none => ((.error .Unknown : Except Err Unit), s)
        | some md =>
          ((.ok () : Except Err Unit), { unreserveS s cd.owner md.deposit with
            classM := (alInsert s.classM c
              { cd with total_deposit := cd.total_deposit - md.deposit }),
            instMeta := alRemove s.instMeta (c, i) })) = (.ok (), s'),
      GoodMaps s'.classM s'.asset := by
    intro cd hcd h2
    cases hm : alGet s.instMeta (c, i) with
    | none => simp only [hm] at h2; simp at h2
    | some md =>
      simp only [hm] at h2
      simp only [Prod.mk.injEq] at h2
      obtain ⟨-, rfl⟩ := h2
      exact goodMaps_classReplace hG hcd rfl rfl
  cases o with
  | force =>
    simp only [clear_metadata, forceOrSigned, ownerOk] at h
    cases hcd : alGet s.classM c with
    | none => simp only [hcd] at h; simp at h
    | some cd =>
      simp only [hcd] at h
      rw [if_neg (by simp)] at h
      simp only [Option.isSome_none, Bool.false_and, Bool.false_eq_true,
        if_false] at h
      exact hrest cd hcd h
  | signed w =>
    simp only [clear_metadata, forceOrSigned, ownerOk] at h
    cases hcd : alGet s.classM c with
    | none => simp only [hcd] at h; simp at h
    | some cd =>
      simp only [hcd] at h
      by_cases h0 : w = cd.owner
      · rw [if_neg (by simp [h0])] at h
        cases hm : alGet s.instMeta (c, i) with
        | none =>
          simp only [hm] at h
          simp only [Option.isSome_some, Bool.true_and,
            Bool.and_false, Bool.false_eq_true, if_false] at h
          simp at h
        | some m =>
          by_cases h5 : m.is_frozen = true
          · simp only [hm, h5, Option.isSome_some, Bool.true_and,
              if_true] at h
            simp at h
          · simp only [Bool.not_eq_true] at h5
            simp only [hm, h5, Option.isSome_some, Bool.true_and,
              Bool.and_false, Bool.false_eq_true, if_false] at h
            exact hrest cd hcd (by simpa [hm] using h)
      · rw [if_pos (by simp [h0])] at h; simp at h

theorem good_set_class_metadata {cfg : Config} {o : Origin} {c : ClassId}
    {n f : List Nat} {z : Bool} {s s' : State}
    (h : set_class_metadata cfg o c n f z s = (.ok (), s'))
    (hG : GoodMaps s.classM s.asset) : GoodMaps s'.classM s'.asset := by
  cases o with
  | force =>
    simp only [set_class_metadata, forceOrSigned, ownerOk] at h
    by_cases h1 : cfg.stringLimit < n.length
    · rw [if_pos h1] at h; simp at h
    · rw [if_neg h1] at h
      by_cases h2 : cfg.stringLimit < f.length
      · rw [if_pos h2] at h; simp at h
      · rw [if_neg h2] at h
        cases hcd : alGet s.classM c with
        | none => simp only [hcd] at h; simp at h
        | some cd =>
          simp only [hcd] at h
          rw [if_neg (by simp)] at h
          simp only [Option.isSome_none, Bool.false_and,
            Bool.false_eq_true, if_false] at h
          simp only [Prod.mk.injEq] at h
          obtain ⟨-, rfl⟩ := h
          simp only [mdCommitC_classM, mdCommitC_asset]
          exact goodMaps_classReplace hG hcd rfl rfl
  | signed w =>
    simp only [set_class_metadata, forceOrSigned, ownerOk] at h
    by_cases h1 : cfg.stringLimit < n.length
    · rw [if_pos h1] at h; simp at h
    · rw [if_neg h1] at h
      by_cases h2 : cfg.stringLimit < f.length
      · rw [if_pos h2] at h; simp at h
      · rw [if_neg h2] at h
        cases hcd : alGet s.classM c with
        | none => simp only [hcd] at h; simp at h
        | some cd =>
          simp only [hcd] at h
          by_cases h0 : w = cd.owner
          · rw [if_neg (by simp [h0])] at h
            cases hm : alGet s.classMeta c with
            | none =>
              simp only [hm] at h
              simp only [Option.isSome_some, Bool.true_and,
                Bool.and_false, Bool.false_eq_true, if_false] at h
              by_cases h4 : oldClassDeposit s c < mdDep cfg n f ∧
                  s.free w < mdDep cfg n f - oldClassDeposit s c
              · rw [if_pos h4] at h; simp at h
              · rw [if_neg h4] at h
                simp only [Prod.mk.injEq] at h
                obtain ⟨-, rfl⟩ := h
                simp only [mdCommitC_classM, mdCommitC_asset,
                  mdPay_classM, mdPay_asset]
                exact goodMaps_classReplace hG hcd rfl rfl
            | some m =>
              simp only [hm] at h
              by_cases h5 : m.is_frozen = true
              · simp only [h5, Option.isSome_some, Bool.true_and,
                  if_true] at h
                simp at h
              · simp only [Bool.not_eq_true] at h5
                simp only [h5, Option.isSome_some, Bool.true_and,
                  Bool.and_false, Bool.false_eq_true, if_false] at h
                by_cases h4 : oldClassDeposit s c < mdDep cfg n f ∧
                    s.free w < mdDep cfg n f - oldClassDeposit s c
                · rw [if_pos h4] at h; simp at h
                · rw [if_neg h4] at h
                  simp only [Prod.mk.injEq] at h
                  obtain ⟨-, rfl⟩ := h
                  simp only [mdCommitC_classM, mdCommitC_asset,
                    mdPay_classM, mdPay_asset]
                  exact goodMaps_classReplace hG hcd rfl rfl
          · rw [if_pos (by simp [h0])] at h; simp at h

theorem good_clear_class_metadata {o : Origin} {c : ClassId} {s s' : State}
    (h : clear_class_metadata o c s = (.ok (), s'))
    (hG : GoodMaps s.classM s.asset) : GoodMaps s'.classM s'.asset := by
  have hrest : ∀ cd : ClassDetails,
      ∀ h2 : (match alGet s.classMeta c with
        | none => ((.error .Unknown : Except Err Unit), s)
        | some md =>
          ((.ok () : Except Err Unit), { unreserveS s cd.owner md.deposit with
            classMeta := alRemove s.classMeta c })) = (.ok (), s'),
      GoodMaps s'.classM s'.asset := by
    intro cd h2
    cases hm : alGet s.classMeta c with
    | none => simp only [hm] at h2; simp at h2
    | some md =>
      simp only [hm] at h2
      simp only [Prod.mk.injEq] at h2
      obtain ⟨-, rfl⟩ := h2
      exact hG
  cases o with
  | force =>
    simp only [clear_class_metadata, forceOrSigned, ownerOk] at h
    cases hcd : alGet s.classM c with
    | none => simp only [hcd] at h; simp at h
    | some cd =>
      simp only [hcd] at h
      rw [if_neg (by simp)] at h
      simp only [Option.isSome_none, Bool.false_and, Bool.false_eq_true,
        if_false] at h
      exact hrest cd h
  | signed w =>
    simp only [clear_class_metadata, forceOrSigned, ownerOk] at h
    cases hcd : alGet s.classM c with
    | none => simp only [hcd] at h; simp at h
    | some cd =>
      simp only [hcd] at h
      by_cases h0 : w = cd.owner
      · rw [if_neg (by simp [h0])] at h
        cases hm : alGet s.classMeta c with
        | none =>
          simp only [hm] at h
          simp only [Option.isSome_some, Bool.true_and,
            Bool.and_false, Bool.false_eq_true, if_false] at h
          simp at h
        | some m =>
          by_cases h5 : m.is_frozen = true
          · simp only [hm, h5, Option.isSome_some, Bool.true_and,
              if_true] at h
            simp at h
          · simp only [Bool.not_eq_true] at h5
            simp only [hm, h5, Option.isSome_some, Bool.true_and,
              Bool.and_false, Bool.false_eq_true, if_false] at h
            exact hrest cd (by simpa [hm] using h)
      · rw [if_pos (by simp [h0])] at h; simp at h

theorem good_step {cfg : Config} {s s' : State}
    (hdep : 0 < cfg.instanceDeposit) (hstep : Step cfg s s')
    (hG : GoodMaps s.classM s.asset) : GoodMaps s'.classM s'.asset := by
  cases hstep with
  | of_create o c a _ _ h => exact good_create h hG
  | of_force_create o c a fh _ _ h => exact good_force_create h hG
  | of_destroy o c w _ _ h => exact good_destroy h hG
  | of_mint o c i b _ _ h => exact good_mint hdep h hG
  | of_burn o c i co _ _ h => exact good_burn h hG
  | of_transfer o c i d _ _ h => exact good_transfer h hG
  | of_freeze o c i _ _ h => exact good_freeze h hG
  | of_thaw o c i _ _ h => exact good_thaw h hG
  | of_freeze_class o c _ _ h => exact good_freeze_class h hG
  | of_thaw_class o c _ _ h => exact good_thaw_class h hG
  | of_transfer_ownership o c a _ _ h => exact good_transfer_ownership h hG
  | of_set_team o c a b d _ _ h => exact good_set_team h hG
  | of_approve_transfer o c i a _ _ h => exact good_approve_transfer h hG
  | of_cancel_approval o c i md _ _ h => exact good_cancel_approval h hG
  | of_force_cancel_approval o c i md _ _ h => exact good_force_cancel_approval h hG
  | of_force_asset_status o c a b d e fh fz _ _ h => exact good_force_asset_status h hG
  | of_set_metadata o c i n f z _ _ h => exact good_set_metadata h hG
  | of_clear_metadata o c i _ _ h => exact good_clear_metadata h hG
  | of_set_class_metadata o c n f z _ _ h => exact good_set_class_metadata h hG
  | of_clear_class_metadata o c _ _ h => exact good_clear_class_metadata h hG

theorem reachable_good {cfg : Config} {s : State}
    (hdep : 0 < cfg.instanceDeposit) (hr : Reachable cfg s) :
    GoodMaps s.classM s.asset := by
  induction hr with
  | init fr rs =>
    refine ⟨List.nodup_nil, ?_, ?_⟩
    · intro p hp; cases hp
    · intro c cd hcd; exact Option.noConfusion hcd
  | next t t' hr hstep ih => exact good_step hdep hstep ih

/-- Claim C3 counterexample: from empty storage, the successful sequence
`force_create(1, owner 1, free_holding = true)`, `mint(1, 1, 2)`,
`burn(1, 1, None)` leaves class 1 with `instances = 0` but
`free_holds = 1`, while the Asset map holds no `(1, *)` entry at all — so
`free_holds ≤ instances` fails and `free_holds` differs from the number of
zero-deposit entries (0).  Moreover under a configuration with
`InstanceDeposit = 0`, after `create(2, 1)` and `mint(2, 1, 2)` the single
live instance has deposit 0 while `free_holds = 0`, refuting the claimed
equality in the other direction. -/
theorem c3_instance_counting_counterexample :
    ((force_create .force 1 1 true s0ex).1 = .ok ()
      ∧ (mint cfgEx (.signed 1) 1 1 2 t1ex).1 = .ok ()
      ∧ (burn (.signed 1) 1 1 none t2ex).1 = .ok ()) ∧
    ((alGet t3ex.classM 1).map ClassDetails.instances = some 0
      ∧ (alGet t3ex.classM 1).map ClassDetails.free_holds = some 1
      ∧ cntC t3ex.asset 1 = 0 ∧ cntZ t3ex.asset 1 = 0
      ∧ ¬ ((1 : Nat) ≤ 0)) ∧
    ((create cfgZero (.signed 1) 2 1 s0ex).1 = .ok ()
      ∧ (mint cfgZero (.signed 1) 2 1 2 u1ex).1 = .ok ()
      ∧ (alGet u2ex.classM 2).map ClassDetails.free_holds = some 0
      ∧ (alGet u2ex.classM 2).map ClassDetails.instances = some 1
      ∧ cntZ u2ex.asset 2 = 1) :=
  ⟨⟨rfl, rfl, rfl⟩, ⟨rfl, rfl, rfl, rfl, by decide⟩,
    ⟨rfl, rfl, rfl, rfl, rfl⟩⟩

/-- Claim C3 (amended): starting from empty storage, after every sequence
of successful operations, under a configuration whose `InstanceDeposit` is
nonzero, every stored class's `instances` counter equals the number of live
`(C, *)` entries in the Asset map, and the number of those entries with
deposit 0 is at most `C.free_holds`.  The spec's equality for `free_holds`
and its bound `free_holds ≤ instances` do not hold on the code: `burn`
decrements `instances` but never `free_holds`. -/
theorem c3_instance_counting_amended {cfg : Config} {s : State}
    (hdep : 0 < cfg.instanceDeposit) (hr : Reachable cfg s) :
    ∀ c cd, alGet s.classM c = some cd →
      cd.instances = cntC s.asset c ∧ cntZ s.asset c ≤ cd.free_holds :=
  (reachable_good hdep hr).2.2

/-- Witness for the amended claim C3 at the concrete reachable state
`t2ex` (force_create then free-held mint). -/
theorem c3_instance_counting_amended_witness :
    (0 : Balance) < cfgEx.instanceDeposit ∧
    ((⟨1, 1, 1, 1, 0, true, 1, 1, false⟩ : ClassDetails).instances
        = cntC t2ex.asset 1 ∧
      cntZ t2ex.asset 1
        ≤ (⟨1, 1, 1, 1, 0, true, 1, 1, false⟩ : ClassDetails).free_holds) :=
  ⟨by decide,
    @c3_instance_counting_amended cfgEx t2ex (by decide)
      (Reachable.next _ _
        (Reachable.next _ _ (Reachable.init (fun _ => 100) (fun _ => 0))
          (Step.of_force_create .force 1 1 true _ _ rfl))
        (Step.of_mint (.signed 1) 1 1 2 _ _ rfl))
      1 _ rfl⟩

/-- Claim C1: deposit conservation (I1) fails on the code.  From empty
storage, `create(0, admin 1)` signed by 1 under `ClassDeposit = 10`
reserves 10; `set_class_metadata(0, [97, 98], [120], false)` reserves the
metadata deposit 8 and raises `total_deposit` to 18; a successful
`clear_class_metadata(0)` unreserves the 8 and removes the metadata entry
but leaves `total_deposit` at 18, whereas the invariant requires
`ClassDeposit + 0 + 0 + 0 = 10`: the stored `total_deposit` no longer
equals the class-creation deposit plus the live instance deposits plus the
metadata deposits, and no longer matches the owner's reserved balance
(10). -/
theorem c1_deposit_conservation_code_bug :
    ((create cfgEx (.signed 1) 0 1 s0ex).1 = .ok ()
      ∧ (set_class_metadata cfgEx (.signed 1) 0 [97, 98] [120] false s1ex).1 = .ok ()
      ∧ (clear_class_metadata (.signed 1) 0 s2ex).1 = .ok ()) ∧
    (alGet s3ex.classM 0).map ClassDetails.total_deposit = some 18 ∧
    alGet s3ex.classMeta 0 = none ∧
    s3ex.asset = [] ∧ s3ex.instMeta = [] ∧
    cfgEx.classDeposit = 10 ∧ s3ex.reserved 1 = 10 ∧
    ¬ ((18 : Balance) = 10) :=
  ⟨⟨rfl, rfl, rfl⟩, rfl, rfl, rfl, rfl, rfl, by decide, by decide⟩

/-- Claim C2: `clear_class_metadata` does not follow the deposit rules of
`clear_metadata`.  In the state `s2ex` (class 0 with `total_deposit = 18`
of which 8 is the class-metadata deposit), a successful
`clear_class_metadata(0)` unreserves the 8 from the class owner and
removes the `ClassMetadataOf` entry, but the stored `total_deposit` stays
18 instead of dropping to 10: the source never writes the class details
back (lib.rs 1117-1125), while `clear_metadata` does (lib.rs 1011-1013). -/
theorem c2_clear_class_metadata_code_bug :
    (clear_class_metadata (.signed 1) 0 s2ex).1 = .ok () ∧
    (alGet s2ex.classM 0).map ClassDetails.total_deposit = some 18 ∧
    (alGet s2ex.classMeta 0).map ClassMetadata.deposit = some 8 ∧
    s2ex.reserved 1 = 18 ∧
    alGet s3ex.classMeta 0 = none ∧
    s3ex.reserved 1 = 10 ∧
    (alGet s3ex.classM 0).map ClassDetails.total_deposit = some 18 ∧
    ¬ ((alGet s3ex.classM 0).map ClassDetails.total_deposit = some (18 - 8)) :=
  ⟨rfl, rfl, rfl, by decide, rfl, by decide, rfl, by decide⟩

theorem create_ok_or_id (cfg : Config) (o : Origin) (c : ClassId)
    (a : AccountId) (s : State) :
    (create cfg o c a s).1 = .ok () ∨ (create cfg o c a s).2 = s := by
  cases o with
  | force => exact Or.inr rfl
  | signed w =>
    simp only [create]
    by_cases h1 : alContains s.classM c = true
    · rw [if_pos h1]; exact Or.inr rfl
    · rw [if_neg h1]
      by_cases h2 : s.free w < cfg.classDeposit
      · rw [if_pos h2]; exact Or.inr rfl
      · rw [if_neg h2]; exact Or.inl rfl

theorem mint_ok_or_id (cfg : Config) (o : Origin) (c : ClassId)
    (i : InstanceId) (b : AccountId) (s : State) :
    (mint cfg o c i b s).1 = .ok () ∨ (mint cfg o c i b s).2 = s := by
  cases o with
  | force => exact Or.inr rfl
  | signed w =>
    simp only [mint]
    by_cases h1 : alContains s.asset (c, i) = true
    · rw [if_pos h1]; exact Or.inr rfl
    · rw [if_neg h1]
      cases hcd : alGet s.classM c with
      | none => exact Or.inr rfl
      | some cd =>
        simp only [hcd]
        by_cases h2 : ¬ cd.issuer = w
        · rw [if_pos h2]; exact Or.inr rfl
        · rw [if_neg h2]
          by_cases h3 : 2 ^ 32 ≤ cd.instances + 1
          · rw [if_pos h3]; exact Or.inr rfl
          · rw [if_neg h3]
            by_cases h4 : cd.free_holding = true
            · simp only [h4, if_true]; simp
            · simp only [Bool.not_eq_true] at h4
              simp only [h4, Bool.false_eq_true, if_false]
              by_cases h5 : s.free cd.owner < cfg.instanceDeposit
              · rw [if_pos h5]; exact Or.inr rfl
              · rw [if_neg h5]; exact Or.inl rfl

theorem set_metadata_ok_or_id (cfg : Config) (o : Origin) (c : ClassId)
    (i : InstanceId) (n f : List Nat) (z : Bool) (s : State) :
    (set_metadata cfg o c i n f z s).1 = .ok ()
      ∨ (set_metadata cfg o c i n f z s).2 = s := by
  cases o with
  | force =>
    simp only [set_metadata, forceOrSigned, ownerOk]
    by_cases h1 : cfg.stringLimit < n.length
    · rw [if_pos h1]; exact Or.inr rfl
    · rw [if_neg h1]
      by_cases h2 : cfg.stringLimit < f.length
      · rw [if_pos h2]; exact Or.inr rfl
      · rw [if_neg h2]
        cases hcd : alGet s.classM c with
        | none => exact Or.inr rfl
        | some cd =>
          simp only [hcd]
          rw [if_neg (by simp)]
          by_cases h3 : alContains s.asset (c, i) = true
          · rw [if_neg (by simp [h3])]
            simp only [Option.isSome_none, Bool.false_and,
              Bool.false_eq_true, if_false]
            simp
          · rw [if_pos (by simp [h3])]; exact Or.inr rfl
  | signed w =>
    simp only [set_metadata, forceOrSigned, ownerOk]
    by_cases h1 : cfg.stringLimit < n.length
    · rw [if_pos h1]; exact Or.inr rfl
    · rw [if_neg h1]
      by_cases h2 : cfg.stringLimit < f.length
      · rw [if_pos h2]; exact Or.inr rfl
      · rw [if_neg h2]
        cases hcd : alGet s.classM c with
        | none => exact Or.inr rfl
        | some cd =>
          simp only [hcd]
          by_cases h0 : w = cd.owner
          · rw [if_neg (by simp [h0])]
            by_cases h3 : alContains s.asset (c, i) = true
            · rw [if_neg (by simp [h3])]
              cases hm : alGet s.instMeta (c, i) with
              | none =>
                simp only [hm]
                simp only [Option.isSome_some, Bool.true_and,
                  Bool.and_false, Bool.false_eq_true, if_false]
                by_cases h4 : oldInstDeposit s c i < mdDep cfg n f ∧
                    s.free w < mdDep cfg n f - oldInstDeposit s c i
                · rw [if_pos h4]; exact Or.inr rfl
                · rw [if_neg h4]; exact Or.inl rfl
              | some m =>
                simp only [hm]
                by_cases h5 : m.is_frozen = true
                · simp only [h5, Option.isSome_some, Bool.true_and, if_true]
                  simp
                · simp only [Bool.not_eq_true] at h5
                  simp only [h5, Option.isSome_some, Bool.true_and,
                    Bool.and_false, Bool.false_eq_true, if_false]
                  by_cases h4 : oldInstDeposit s c i < mdDep cfg n f ∧
                      s.free w < mdDep cfg n f - oldInstDeposit s c i
                  · rw [if_pos h4]; exact Or.inr rfl
                  · rw [if_neg h4]; exact Or.inl rfl
            · rw [if_pos (by simp [h3])]; exact Or.inr rfl
          · rw [if_pos (by simp [h0])]; exact Or.inr rfl

theorem set_class_metadata_ok_or_id (cfg : Config) (o : Origin)
    (c : ClassId) (n f : List Nat) (z : Bool) (s : State) :
    (set_class_metadata cfg o c n f z s).1 = .ok ()
      ∨ (set_class_metadata cfg o c n f z s).2 = s := by
  cases o with
  | force =>
    simp only [set_class_metadata, forceOrSigned, ownerOk]
    by_cases h1 : cfg.stringLimit < n.length
    · rw [if_pos h1]; exact Or.inr rfl
    · rw [if_neg h1]
      by_cases h2 : cfg.stringLimit < f.length
      · rw [if_pos h2]; exact Or.inr rfl
      · rw [if_neg h2]
        cases hcd : alGet s.classM c with
        | none => exact Or.inr rfl
        | some cd =>
          simp only [hcd]
          rw [if_neg (by simp)]
          simp only [Option.isSome_none, Bool.false_and,
            Bool.false_eq_true, if_false]
          simp
  | signed w =>
    simp only [set_class_metadata, forceOrSigned, ownerOk]
    by_cases h1 : cfg.stringLimit < n.length
    · rw [if_pos h1]; exact Or.inr rfl
    · rw [if_neg h1]
      by_cases h2 : cfg.stringLimit < f.length
      · rw [if_pos h2]; exact Or.inr rfl
      · rw [if_neg h2]
        cases hcd : alGet s.classM c with
        | none => exact Or.inr rfl
        | some cd =>
          simp only [hcd]
          by_cases h0 : w = cd.owner
          · rw [if_neg (by simp [h0])]
            cases hm : alGet s.classMeta c with
            | none =>
              simp only [hm]
              simp only [Option.isSome_some, Bool.true_and,
                Bool.and_false, Bool.false_eq_true, if_false]
              by_cases h4 : oldClassDeposit s c < mdDep cfg n f ∧
                  s.free w < mdDep cfg n f - oldClassDeposit s c
              · rw [if_pos h4]; exact Or.inr rfl
              · rw [if_neg h4]; exact Or.inl rfl
            | some m =>
              simp only [hm]
              by_cases h5 : m.is_frozen = true
              · simp only [h5, Option.isSome_some, Bool.true_and, if_true]
                simp
              · simp only [Bool.not_eq_true] at h5
                simp only [h5, Option.isSome_some, Bool.true_and,
                  Bool.and_false, Bool.false_eq_true, if_false]
                by_cases h4 : oldClassDeposit s c < mdDep cfg n f ∧
                    s.free w < mdDep cfg n f - oldClassDeposit s c
                · rw [if_pos h4]; exact Or.inr rfl
                · rw [if_neg h4]; exact Or.inl rfl
          · rw [if_pos (by simp [h0])]; exact Or.inr rfl

/-- Claim C4: the four operations that call `Currency::reserve` (`create`,
`mint`, `set_metadata`, `set_class_metadata`) never commit a partial
mutation on failure: whenever any of them returns an error — in particular
the reserve error — the state it returns, all five storage maps and the
currency balances included, is exactly the input state.  The reserve is
always the last fallible step, so a reserve failure aborts with nothing
written. -/
theorem c4_reserve_failure_atomicity (cfg : Config) (o : Origin)
    (c : ClassId) (i : InstanceId) (a b : AccountId) (n f : List Nat)
    (z : Bool) (s : State) (e : Err) :
    ((create cfg o c a s).1 = .error e → (create cfg o c a s).2 = s) ∧
    ((mint cfg o c i b s).1 = .error e → (mint cfg o c i b s).2 = s) ∧
    ((set_metadata cfg o c i n f z s).1 = .error e →
      (set_metadata cfg o c i n f z s).2 = s) ∧
    ((set_class_metadata cfg o c n f z s).1 = .error e →
      (set_class_metadata cfg o c n f z s).2 = s) := by
  refine ⟨fun h => ?_, fun h => ?_, fun h => ?_, fun h => ?_⟩
  · rcases create_ok_or_id cfg o c a s with hok | hid
    · rw [h] at hok; exact Except.noConfusion hok
    · exact hid
  · rcases mint_ok_or_id cfg o c i b s with hok | hid
    · rw [h] at hok; exact Except.noConfusion hok
    · exact hid
  · rcases set_metadata_ok_or_id cfg o c i n f z s with hok | hid
    · rw [h] at hok; exact Except.noConfusion hok
    · exact hid
  · rcases set_class_metadata_ok_or_id cfg o c n f z s with hok | hid
    · rw [h] at hok; exact Except.noConfusion hok
    · exact hid

/-- Witness for claim C4: in the fundless state `sPoor` the reserve of
`ClassDeposit = 10` fails, `create` returns the reserve error, and the
returned state is `sPoor` itself. -/
theorem c4_reserve_failure_atomicity_witness :
    (create cfgEx (.signed 1) 0 1 sPoor).1 = .error .InsufficientBalance ∧
    (create cfgEx (.signed 1) 0 1 sPoor).2 = sPoor :=
  ⟨rfl, (c4_reserve_failure_atomicity cfgEx (.signed 1) 0 0 1 1 [] [] false
    sPoor .InsufficientBalance).1 rfl⟩

/-- Claim C5: for an existing class, `destroy` under a passing
authorization (force origin, or signed by the class owner) with a witness
whose `instances` or `free_holds` differs from the stored counters returns
`BadWitness` and leaves the whole state — class, assets, reverse index,
metadata and reserves — unchanged. -/
theorem c5_destroy_bad_witness (o : Origin) (c : ClassId)
    (w : DestroyWitness) (s : State) (cd : ClassDetails)
    (hcd : alGet s.classM c = some cd)
    (hauth : o = .force ∨ o = .signed cd.owner)
    (hw : ¬ w.instances = cd.instances ∨ ¬ w.free_holds = cd.free_holds) :
    destroy o c w s = (.error .BadWitness, s) := by
  have hchk : destroyCheck c cd w s = (.error .BadWitness, s) := by
    simp only [destroyCheck]
    rcases hw with hw | hw
    · rw [if_pos (fun hq => hw hq.symm)]
    · by_cases h1 : ¬ cd.instances = w.instances
      · rw [if_pos h1]
      · rw [if_neg h1, if_pos (fun hq => hw hq.symm)]
  rcases hauth with rfl | rfl
  · simp only [destroy, forceOrSigned, hcd]
    exact hchk
  · simp only [destroy, forceOrSigned, hcd]
    rw [if_neg (by simp)]
    exact hchk

/-- Witness for claim C5: class 0 in `s1ex` stores `instances = 0` and
`free_holds = 0`; destroying it with witness `{instances 1, free_holds 0}`
fails with `BadWitness` and returns the state unchanged. -/
theorem c5_destroy_bad_witness_witness :
    alGet s1ex.classM 0 = some ⟨1, 1, 1, 1, 10, false, 0, 0, false⟩ ∧
    destroy .force 0 ⟨1, 0⟩ s1ex = (.error .BadWitness, s1ex) :=
  ⟨rfl, c5_destroy_bad_witness .force 0 ⟨1, 0⟩ s1ex _ rfl (Or.inl rfl)
    (Or.inl (by decide))⟩

/-- Claim C6 counterexample: in `vEx` the class freezer is account 2 and
the class admin is account 3; `thaw` signed by the freezer fails with
`NoPermission` while `thaw` signed by the admin succeeds — the source
authorizes `thaw` against the admin, not the freezer as claimed. -/
theorem c6_freeze_thaw_counterexample :
    (thaw (.signed 2) 0 0 vEx).1 = .error .NoPermission ∧
    (thaw (.signed 3) 0 0 vEx).1 = .ok () :=
  ⟨rfl, rfl⟩

/-- Claim C6 (amended): for an existing class and instance, `freeze`
signed by the class freezer succeeds and sets the instance's `is_frozen`
flag, any other signer gets `NoPermission` with the state unchanged;
`thaw` is authorized against the class *admin* (a source quirk the spec
flags in section 9): the admin succeeds and clears the flag, any other
signer — the freezer included — gets `NoPermission` with the state
unchanged. -/
theorem c6_freeze_thaw_amended (s : State) (c : ClassId) (i : InstanceId)
    (a : AccountId) (cd : ClassDetails) (d : InstanceDetails)
    (hcd : alGet s.classM c = some cd) (hd : alGet s.asset (c, i) = some d) :
    freeze (.signed a) c i s
      = (if a = cd.freezer then
          (.ok (), { s with
            asset := alInsert s.asset (c, i) { d with is_frozen := true } })
         else (.error .NoPermission, s)) ∧
    thaw (.signed a) c i s
      = (if a = cd.admin then
          (.ok (), { s with
            asset := alInsert s.asset (c, i) { d with is_frozen := false } })
         else (.error .NoPermission, s)) := by
  constructor
  · simp only [freeze, hd, hcd]
    by_cases h1 : a = cd.freezer
    · rw [if_pos h1, if_neg (not_not_intro h1.symm)]
    · rw [if_neg h1, if_pos (fun hq => h1 hq.symm)]
  · simp only [thaw, hd, hcd]
    by_cases h1 : a = cd.admin
    · rw [if_pos h1, if_neg (not_not_intro h1.symm)]
    · rw [if_neg h1, if_pos (fun hq => h1 hq.symm)]

/-- Witness for the amended claim C6 at `vEx` (freezer 2, admin 3):
`freeze` by the freezer succeeds, `thaw` by the freezer is rejected. -/
theorem c6_freeze_thaw_amended_witness :
    freeze (.signed 2) 0 0 vEx
      = (.ok (), { vEx with
          asset := alInsert vEx.asset (0, 0) ⟨5, none, true, 0⟩ }) ∧
    thaw (.signed 2) 0 0 vEx = (.error .NoPermission, vEx) := by
  have h := c6_freeze_thaw_amended vEx 0 0 2
    ⟨1, 1, 3, 2, 0, false, 1, 0, false⟩ ⟨5, none, true, 0⟩ rfl rfl
  constructor
  · rw [h.1, if_pos rfl]
  · rw [h.2, if_neg (by decide)]

/-- Claim C7 counterexample: the claim as stated fails in two ways.  In
`sFroz` the class is frozen while the instance is live and unfrozen with
`approved = Some 4` and 4 neither owner nor admin, yet the delegate's
transfer fails with `Frozen` instead of succeeding.  In `sDeleg` (class
unfrozen) the delegate 4 transfers the instance to itself; the immediately
following transfer signed by 4 succeeds (4 is now the owner) instead of
failing with `NoPermission`. -/
theorem c7_delegated_transfer_counterexample :
    (transfer (.signed 4) 9 5 7 sFroz).1 = .error .Frozen ∧
    ((transfer (.signed 4) 8 5 4 sDeleg).1 = .ok ()
      ∧ (transfer (.signed 4) 8 5 6
          (transfer (.signed 4) 8 5 4 sDeleg).2).1 = .ok ()) :=
  ⟨rfl, rfl, rfl⟩

/-- Claim C7 (amended): for a live, unfrozen instance in an unfrozen class
with `approved = Some d` where `d` is neither the instance owner, nor the
class admin, nor the destination, transfer signed by `d` succeeds, makes
the destination the owner and clears the approval, and an immediately
following transfer signed by `d` fails with `NoPermission`, leaving the
state unchanged. -/
theorem c7_delegated_transfer_amended (s : State) (c : ClassId)
    (i : InstanceId) (del dest : AccountId) (cd : ClassDetails)
    (d : InstanceDetails)
    (hcd : alGet s.classM c = some cd) (hcf : cd.is_frozen = false)
    (hd : alGet s.asset (c, i) = some d) (hdf : d.is_frozen = false)
    (hap : d.approved = some del)
    (h1 : ¬ del = d.owner) (h2 : ¬ del = cd.admin) (h3 : ¬ del = dest) :
    transfer (.signed del) c i dest s
      = (.ok (), transferCommit c i dest d none s) ∧
    alGet (transferCommit c i dest d none s).asset (c, i)
      = some ⟨dest, none, false, d.deposit⟩ ∧
    ∀ dest2, transfer (.signed del) c i dest2
        (transferCommit c i dest d none s)
      = (.error .NoPermission, transferCommit c i dest d none s) := by
  have hget2 : alGet (transferCommit c i dest d none s).asset (c, i)
      = some ⟨dest, none, d.is_frozen, d.deposit⟩ := by
    rw [transferCommit_asset]; exact alGet_alInsert_self _ _ _
  refine ⟨?_, ?_, ?_⟩
  · simp only [transfer, hcd, hcf, Bool.false_eq_true, if_false, hd, hdf,
      hap]
    rw [if_neg (by rintro (hq | hq); exacts [h1 hq.symm, h2 hq.symm])]
    simp
  · rw [hget2, hdf]
  · intro dest2
    have hget1 : alGet (transferCommit c i dest d none s).classM c
        = some cd := by
      rw [transferCommit_classM]; exact hcd
    simp only [transfer, hget1, hcf, Bool.false_eq_true, if_false, hget2,
      hdf]
    rw [if_neg (by rintro (hq | hq); exacts [h3 hq.symm, h2 hq.symm])]

/-- Witness for the amended claim C7 at `sDeleg` with destination 7. -/
theorem c7_delegated_transfer_amended_witness :
    (transfer (.signed 4) 8 5 7 sDeleg).1 = .ok () ∧
    (transfer (.signed 4) 8 5 9
        (transferCommit 8 5 7 ⟨2, some 4, false, 0⟩ none sDeleg)).1
      = .error .NoPermission := by
  have h := c7_delegated_transfer_amended sDeleg 8 5 4 7
    ⟨1, 1, 1, 1, 0, false, 1, 0, false⟩ ⟨2, some 4, false, 0⟩
    rfl rfl rfl rfl rfl (by decide) (by decide) (by decide)
  exact ⟨by rw [h.1], by rw [h.2.2 9]⟩

/-- Claim C9: `burn` examines neither the class's nor the instance's
`is_frozen` flag.  For any state — both frozen flags unconstrained — with
an existing class and a live instance, `burn` signed by the class admin or
by the instance owner, with a matching `check_owner` when one is supplied,
succeeds. -/
theorem c9_burn_ignores_freezing (s : State) (c : ClassId) (i : InstanceId)
    (a : AccountId) (co : Option AccountId) (cd : ClassDetails)
    (d : InstanceDetails)
    (hcd : alGet s.classM c = some cd) (hd : alGet s.asset (c, i) = some d)
    (hperm : cd.admin = a ∨ d.owner = a)
    (hco : co = none ∨ co = some d.owner) :
    (burn (.signed a) c i co s).1 = .ok () := by
  simp only [burn, hcd, hd]
  rw [if_neg (not_not_intro hperm)]
  have hok : ownerOk co d.owner = true := by
    rcases hco with rfl | rfl
    · rfl
    · simp [ownerOk]
  rw [if_neg (not_not_intro hok)]
  cases hm : alGet s.instMeta (c, i) <;> simp [hm]

/-- Witness for claim C9 at `wBurn`: both the class and the instance are
frozen, yet `burn` signed by the instance owner 2 with
`check_owner = some 2` succeeds. -/
theorem c9_burn_ignores_freezing_witness :
    (burn (.signed 2) 3 7 (some 2) wBurn).1 = .ok () :=
  c9_burn_ignores_freezing wBurn 3 7 2 (some 2) _ _ rfl rfl
    (Or.inr rfl) (Or.inr rfl)

/-- Claim C10: a transfer performed by the instance owner or the class
admin (not through the delegate) leaves `approved` untouched: with
`approved = Some del` beforehand, the record stored under the new owner
still carries `approved = Some del`, and the previously approved delegate
can still transfer the instance away from the new owner. -/
theorem c10_owner_transfer_keeps_approval (s : State) (c : ClassId)
    (i : InstanceId) (a dest : AccountId) (cd : ClassDetails)
    (d : InstanceDetails) (del : AccountId)
    (hcd : alGet s.classM c = some cd) (hcf : cd.is_frozen = false)
    (hd : alGet s.asset (c, i) = some d) (hdf : d.is_frozen = false)
    (hap : d.approved = some del)
    (hperm : d.owner = a ∨ cd.admin = a) :
    transfer (.signed a) c i dest s
      = (.ok (), transferCommit c i dest d (some del) s) ∧
    alGet (transferCommit c i dest d (some del) s).asset (c, i)
      = some ⟨dest, some del, false, d.deposit⟩ ∧
    ∀ dest2, (transfer (.signed del) c i dest2
        (transferCommit c i dest d (some del) s)).1 = .ok () := by
  refine ⟨?_, ?_, ?_⟩
  · simp only [transfer, hcd, hcf, Bool.false_eq_true, if_false, hd, hdf]
    rw [if_pos hperm, hap]
  · have hget : alGet (transferCommit c i dest d (some del) s).asset (c, i)
        = some ⟨dest, some del, d.is_frozen, d.deposit⟩ := by
      rw [transferCommit_asset]; exact alGet_alInsert_self _ _ _
    rw [hdf] at hget
    exact hget
  · intro dest2
    have hget1 : alGet (transferCommit c i dest d (some del) s).classM c
        = some cd := by
      rw [transferCommit_classM]; exact hcd
    have hget2 : alGet (transferCommit c i dest d (some del) s).asset (c, i)
        = some ⟨dest, some del, d.is_frozen, d.deposit⟩ := by
      rw [transferCommit_asset]; exact alGet_alInsert_self _ _ _
    simp only [transfer, hget1, hcf, Bool.false_eq_true, if_false, hget2,
      hdf]
    by_cases hq : dest = del ∨ cd.admin = del
    · rw [if_pos hq]
    · rw [if_neg hq]
      simp

/-- Witness for claim C10 at `wTrans` (owner 2, admin 9, delegate 6):
the owner's transfer to 3 keeps the approval, and delegate 6 can then
transfer the instance on to 5. -/
theorem c10_owner_transfer_keeps_approval_witness :
    transfer (.signed 2) 4 2 3 wTrans
      = (.ok (), transferCommit 4 2 3 ⟨2, some 6, false, 0⟩ (some 6) wTrans) ∧
    alGet (transferCommit 4 2 3 ⟨2, some 6, false, 0⟩ (some 6) wTrans).asset
        (4, 2) = some ⟨3, some 6, false, 0⟩ ∧
    (transfer (.signed 6) 4 2 5
        (transferCommit 4 2 3 ⟨2, some 6, false, 0⟩ (some 6) wTrans)).1
      = .ok () := by
  have h := c10_owner_transfer_keeps_approval wTrans 4 2 2 3
    ⟨1, 1, 9, 1, 0, false, 1, 0, false⟩ ⟨2, some 6, false, 0⟩ 6
    rfl rfl rfl rfl rfl (Or.inl rfl)
  exact ⟨h.1, h.2.1, h.2.2 5⟩

@[simp] theorem mdCommitI_reserved (c : ClassId) (i : InstanceId)
    (n f : List Nat) (z : Bool) (old dep : Balance) (cd : ClassDetails)
    (s : State) : (mdCommitI c i n f z old dep cd s).reserved = s.reserved :=
  rfl

theorem mdPay_reserved_self (s : State) (w : AccountId) (o d : Balance) :
    (mdPay s w o d).reserved w
      = if o < d then s.reserved w + (d - o)
        else s.reserved w - min (s.reserved w) (o - d) := by
  unfold mdPay
  by_cases h : o < d
  · rw [if_pos h, if_pos h]
    exact setBal_self _ _ _
  · rw [if_neg h, if_neg h]
    exact setBal_self _ _ _

theorem mdPay_reserved_ne (s : State) {w x : AccountId} (o d : Balance)
    (h : ¬ x = w) : (mdPay s w o d).reserved x = s.reserved x := by
  unfold mdPay
  by_cases h1 : o < d
  · rw [if_pos h1]; exact setBal_ne _ _ h
  · rw [if_neg h1]; exact setBal_ne _ _ h

theorem metaReservedComp (R d0 dx dy : Nat) (h : d0 ≤ R) :
    (if dx < dy then
      (if d0 < dx then R + (dx - d0) else R - min R (d0 - dx)) + (dy - dx)
     else
      (if d0 < dx then R + (dx - d0) else R - min R (d0 - dx))
        - min (if d0 < dx then R + (dx - d0) else R - min R (d0 - dx))
            (dx - dy))
    = (if d0 < dy then R + (dy - d0) else R - min R (d0 - dy)) := by
  simp only [Nat.min_def]
  split_ifs <;> omega

/-- Success inversion for `set_metadata` under a signed origin: the class
exists, the signer is its owner, and the final state is the metadata
commit applied over the deposit adjustment `mdPay`. -/
theorem set_metadata_signed_inv {cfg : Config} {w : AccountId}
    {c : ClassId} {i : InstanceId} {n f : List Nat} {z : Bool}
    {s s' : State}
    (h : set_metadata cfg (.signed w) c i n f z s = (.ok (), s')) :
    ∃ cd, alGet s.classM c = some cd ∧ w = cd.owner ∧
      s' = mdCommitI c i n f z (oldInstDeposit s c i) (mdDep cfg n f) cd
        (mdPay s w (oldInstDeposit s c i) (mdDep cfg n f)) := by
  simp only [set_metadata, forceOrSigned, ownerOk] at h
  by_cases h1 : cfg.stringLimit < n.length
  · rw [if_pos h1] at h; simp at h
  · rw [if_neg h1] at h
    by_cases h2 : cfg.stringLimit < f.length
    · rw [if_pos h2] at h; simp at h
    · rw [if_neg h2] at h
      cases hcd : alGet s.classM c with
      | none => simp only [hcd] at h; simp at h
      | some cd =>
        simp only [hcd] at h
        by_cases h0 : w = cd.owner
        · rw [if_neg (by simp [h0])] at h
          by_cases h3 : alContains s.asset (c, i) = true
          · rw [if_neg (by simp [h3])] at h
            cases hm : alGet s.instMeta (c, i) with
            | none =>
              simp only [hm, Option.isSome_some, Bool.true_and,
                Bool.and_false, Bool.false_eq_true, if_false] at h
              by_cases h4 : oldInstDeposit s c i < mdDep cfg n f ∧
                  s.free w < mdDep cfg n f - oldInstDeposit s c i
              · rw [if_pos h4] at h; simp at h
              · rw [if_neg h4] at h
                simp only [Prod.mk.injEq] at h
                exact ⟨cd, rfl, h0, h.2.symm⟩
            | some m =>
              simp only [hm] at h
              by_cases h5 : m.is_frozen = true
              · simp only [h5, Option.isSome_some, Bool.true_and,
                  if_true] at h
                simp at h
              · simp only [Bool.not_eq_true] at h5
                simp only [h5, Option.isSome_some, Bool.true_and,
                  Bool.and_false, Bool.false_eq_true, if_false] at h
                by_cases h4 : oldInstDeposit s c i < mdDep cfg n f ∧
                    s.free w < mdDep cfg n f - oldInstDeposit s c i
                · rw [if_pos h4] at h; simp at h
                · rw [if_neg h4] at h
                  simp only [Prod.mk.injEq] at h
                  exact ⟨cd, rfl, h0, h.2.symm⟩
          · rw [if_pos (by simp [h3])] at h; simp at h
        · rw [if_pos (by simp [h0])] at h; simp at h

/-- Claim C8 counterexample: the claim as stated — for *every* state in
which both runs succeed under the same signed class owner — is false.  In
`sC8` the recorded instance-metadata deposit is 10 while the class owner
has only 4 reserved, so the saturating unreserve (lib.rs 954) returns only
4.  With x-deposit 0 and y-deposit 8, all three calls succeed, yet
`set_metadata x` then `set_metadata y` ends with the owner's reserved
balance 8 while `set_metadata y` alone ends with 2. -/
theorem c8_set_metadata_idempotent_counterexample :
    (set_metadata cfgC8 (.signed 1) 5 3 [] [] false sC8).1 = .ok () ∧
    (set_metadata cfgC8 (.signed 1) 5 3 [97, 98] [99, 100] true sC8x).1
      = .ok () ∧
    (set_metadata cfgC8 (.signed 1) 5 3 [97, 98] [99, 100] true sC8).1
      = .ok () ∧
    (alGet sC8.classM 5).map ClassDetails.owner = some 1 ∧
    (alGet sC8.instMeta (5, 3)).map InstanceMetadata.deposit = some 10 ∧
    sC8.reserved 1 = 4 ∧
    sC8xy.reserved 1 = 8 ∧ sC8y.reserved 1 = 2 ∧ ¬ ((8 : Balance) = 2) :=
  ⟨rfl, rfl, rfl, rfl, rfl, by decide, by decide, by decide, by decide⟩

/-- Claim C8 (amended): `set_metadata` is idempotent with respect to
deposits on every state in which both runs succeed under the same signed
class owner *and* the owner's reserved balance covers the currently
recorded instance-metadata deposit — a consistency condition implied by
deposit conservation, holding in every state the pallet itself produces.
Without it the saturating unreserve makes the two executions diverge (see
the counterexample).  Under it, if `set_metadata x` then `set_metadata y`
both succeed and `set_metadata y` alone also succeeds, the two executions
end with the same Currency reserves for every account and the same stored
`total_deposit` for the class. -/
theorem c8_set_metadata_idempotent (cfg : Config) (s : State) (c : ClassId)
    (i : InstanceId) (w : AccountId) (xn xf : List Nat) (xz : Bool)
    (yn yf : List Nat) (yz : Bool) (s1 s2 s2' : State)
    (hR : oldInstDeposit s c i ≤ s.reserved w)
    (h1 : set_metadata cfg (.signed w) c i xn xf xz s = (.ok (), s1))
    (h2 : set_metadata cfg (.signed w) c i yn yf yz s1 = (.ok (), s2))
    (h3 : set_metadata cfg (.signed w) c i yn yf yz s = (.ok (), s2')) :
    (∀ x, s2.reserved x = s2'.reserved x) ∧
    (alGet s2.classM c).map ClassDetails.total_deposit
      = (alGet s2'.classM c).map ClassDetails.total_deposit := by
  obtain ⟨cd, hcd, hw, hs1⟩ := set_metadata_signed_inv h1
  obtain ⟨cd1, hcd1, hw1, hs2⟩ := set_metadata_signed_inv h2
  obtain ⟨cd', hcd', hw', hs2'⟩ := set_metadata_signed_inv h3
  rw [hcd] at hcd'
  obtain rfl : cd = cd' := by
    simpa using hcd'
  have hold1 : oldInstDeposit s1 c i = mdDep cfg xn xf := by
    rw [hs1]
    simp only [oldInstDeposit, mdCommitI_instMeta, alGet_alInsert_self]
  have hcd1v : alGet s1.classM c = some
      { cd with total_deposit :=
          cd.total_deposit - oldInstDeposit s c i + mdDep cfg xn xf } := by
    rw [hs1]
    simp only [mdCommitI_classM, alGet_alInsert_self]
  rw [hcd1v] at hcd1
  obtain rfl : cd1 = { cd with total_deposit :=
      cd.total_deposit - oldInstDeposit s c i + mdDep cfg xn xf } := by
    have := hcd1.symm
    simpa using this
  have hres1w : s1.reserved w
      = if oldInstDeposit s c i < mdDep cfg xn xf then
          s.reserved w + (mdDep cfg xn xf - oldInstDeposit s c i)
        else s.reserved w
          - min (s.reserved w) (oldInstDeposit s c i - mdDep cfg xn xf) := by
    rw [hs1]
    simp only [mdCommitI_reserved]
    exact mdPay_reserved_self _ _ _ _
  constructor
  · intro x
    by_cases hx : x = w
    · subst hx
      rw [hs2, hs2']
      simp only [mdCommitI_reserved]
      rw [mdPay_reserved_self, mdPay_reserved_self, hold1, hres1w]
      exact metaReservedComp (s.reserved x) (oldInstDeposit s c i)
        (mdDep cfg xn xf) (mdDep cfg yn yf) hR
    · rw [hs2, hs2']
      simp only [mdCommitI_reserved]
      rw [mdPay_reserved_ne _ _ _ hx, mdPay_reserved_ne _ _ _ hx]
      rw [hs1]
      simp only [mdCommitI_reserved]
      rw [mdPay_reserved_ne _ _ _ hx]
  · rw [hs2, hs2', hold1]
    simp only [mdCommitI_classM, alGet_alInsert_self, Option.map_some']
    rw [Option.some_inj, Nat.add_sub_cancel]

/-- Witness for claim C8: in `m1ex` (class 0, paid instance `(0, 0)`, no
metadata yet), setting metadata `([97], [])` and then `([97, 98], [99])`
ends with the same reserves and `total_deposit` as setting
`([97, 98], [99])` directly. -/
theorem c8_set_metadata_idempotent_witness :
    m3ex.reserved 1 = m3ex'.reserved 1 ∧
    (alGet m3ex.classM 0).map ClassDetails.total_deposit
      = (alGet m3ex'.classM 0).map ClassDetails.total_deposit := by
  have hmain := c8_set_metadata_idempotent cfgEx m1ex 0 0 1 [97] [] false
    [97, 98] [99] true m2ex m3ex m3ex' (by decide) rfl rfl rfl
  exact ⟨hmain.1 1, hmain.2⟩

end Uniques
